import Mathlib

/-!
Maxwell's demon: particle simulation, gate and dot rendering.

A shallow embedding of `main.go` and of `game-util/dotutil` (`line.go`,
`pattern.go`).

Conventions of the embedding.

* `float64` values of `main.go` are exact rationals (`ℚ`): comparison,
  negation and the assignment of constants are exact in both; sums and
  products are the exact ones.
* The functions of `dotutil` are written over any ordered field `K` with a
  floor function in place of `float64`, so that they can be evaluated over `ℚ`
  and stated over `ℝ` with the real square root, cosine, sine and `atan2`.
  The sums, differences and squares of `DrawLine` are the fields of `FloatOps`,
  a parameter, so that what is proved of `DrawLine` holds for the rounded
  operations as for the exact ones (`exactOps`).
* `ebiten.NewImage` panics on a size that it cannot serve; `NewImage` and
  `resizeCanvas` return `none` then. `growCanvas` is the surface when it
  returns.
* `math.Pi`, `math.Cos`, `math.Sin`, `math.Sqrt` and `math.Atan2` come from
  Go's library; they are the fields of `MathLib`, a parameter of the functions
  that use them.
* `int` is the 64-bit `int` of Go: an `Int`, with `wrapInt` applied where a
  result can leave the range (`level * 5`, `level++`, the doubled sizes of
  `resizeCanvas`); `uint64` is `Nat` reduced modulo `2 ^ 64`.
* `rand.Int()` returns a non-negative `int`; the draws made during one call
  are a stream `Nat → Nat`, indexed by the number of draws already made.
* Audio, logging and drawing calls have no effect on the game state and are
  left out.
-/

namespace MaxwellsDemon

/-! ## Constants of `main.go` (untyped integer constants) -/

abbrev screenWidth : Int := 640
abbrev screenHeight : Int := 480
abbrev frameTop : Int := 70
abbrev frameLeft : Int := 23
abbrev frameRight : Int := screenWidth - frameLeft
abbrev frameBottom : Int := screenHeight - 30
abbrev frameThickness : Int := 15
abbrev partitionSlitSize : Int := 50
abbrev partitionSlitSpeed : Int := 1
abbrev moleculeRadius : Int := 10
abbrev moleculeSpeedHighValue : Int := 4
abbrev moleculeSpeedLowValue : Int := 3

/-- The value that Go's 64-bit `int` holds for the arithmetic result `n`:
`n` itself from `-2^63` to `2^63 - 1`, and wrapped around modulo `2^64`
outside. -/
def wrapInt (n : Int) : Int :=
  (n + 2 ^ 63) % 2 ^ 64 - 2 ^ 63

/-- The constants and functions of Go's `math` package that the code uses, on
the number type `K` that stands for `float64`; `Atan2 y x` has the argument
order of `math.Atan2`. -/
structure MathLib (K : Type) where
  Pi : K
  Cos : K → K
  Sin : K → K
  Sqrt : K → K
  Atan2 : K → K → K

inductive MoleculeSpeedType where
  | MoleculeSpeedHigh
  | MoleculeSpeedLow
  deriving DecidableEq, Repr

open MoleculeSpeedType

structure Molecule where
  speedType : MoleculeSpeedType
  x : ℚ
  y : ℚ
  vx : ℚ
  vy : ℚ
  r : ℚ
  deriving DecidableEq

inductive GameMode where
  | GameModeTitle
  | GameModeLevelStart
  | GameModePlaying
  | GameModeComplete
  deriving DecidableEq, Repr

open GameMode

/-- The fields of `Game` that `Update` and `setUpField` read or write
(`playID` and `touchContext` are carried by `Input`). -/
structure Game where
  mode : GameMode
  ticksFromModeStart : Nat
  level : Int
  molecules : List Molecule
  partitionSlitTop : ℚ
  partitionSlitBottom : ℚ
  partitionSlitVec : ℚ
  isPartitionSlitOpen : Bool
  playStartTime : Int
  playingSec : Int
  lowSpeedMoleculeCount : Int
  highSpeedMoleculeCount : Int
  lowSpeedMoleculeCountInLeftSide : Int
  highSpeedMoleculeCountInRightSide : Int

/-- What one call of `Update` reads from outside the game state. -/
structure Input where
  /-- The value of `touchContext.IsJustTouched()` after `touchContext.Update()`. -/
  isJustTouched : Bool
  /-- The value of `touchContext.IsJustReleased()`. -/
  isJustReleased : Bool
  /-- The value of `uint64(ebiten.CurrentTPS())`. -/
  currentTPS : Nat
  /-- The value of `time.Now().Unix()`. -/
  now : Int
  /-- The results of the successive `rand.Int()` calls of this tick. -/
  rand : Nat → Nat

/-- `Molecule.move`. -/
def Molecule.move (m : Molecule) : Molecule :=
  { m with x := m.x + m.vx, y := m.y + m.vy }

/-- The first test of `reboundIfCollide`: `if m.x < frameLeft`. -/
def Molecule.reboundFrameLeft (m : Molecule) : Molecule :=
  if m.x < (frameLeft : ℚ) then { m with x := (frameLeft : ℚ), vx := m.vx * -1 } else m

/-- The second test of `reboundIfCollide`: `if m.x > frameRight`. -/
def Molecule.reboundFrameRight (m : Molecule) : Molecule :=
  if m.x > (frameRight : ℚ) then { m with x := (frameRight : ℚ), vx := m.vx * -1 } else m

/-- The third test of `reboundIfCollide`: `if m.y < frameTop`. -/
def Molecule.reboundFrameTop (m : Molecule) : Molecule :=
  if m.y < (frameTop : ℚ) then { m with y := (frameTop : ℚ), vy := m.vy * -1 } else m

/-- The fourth test of `reboundIfCollide`: `if m.y > frameBottom`. -/
def Molecule.reboundFrameBottom (m : Molecule) : Molecule :=
  if m.y > (frameBottom : ℚ) then { m with y := (frameBottom : ℚ), vy := m.vy * -1 } else m

/-- The fifth test of `reboundIfCollide`: the left face of the partition,
at `screenWidth/2 - frameThickness/2`. -/
def Molecule.reboundPartitionLeft (m : Molecule) (game : Game) : Molecule :=
  if m.x > ((screenWidth / 2 - frameThickness / 2 : Int) : ℚ) ∧
      m.x - m.vx < ((screenWidth / 2 - frameThickness / 2 : Int) : ℚ) then
    if !game.isPartitionSlitOpen || decide (m.y ≤ game.partitionSlitTop) ||
        decide (m.y ≥ game.partitionSlitBottom) then
      { m with x := ((screenWidth / 2 - frameThickness / 2 : Int) : ℚ), vx := m.vx * -1 }
    else m
  else m

/-- The sixth test of `reboundIfCollide`: the right face of the partition,
at `screenWidth/2 + frameThickness/2`. -/
def Molecule.reboundPartitionRight (m : Molecule) (game : Game) : Molecule :=
  if m.x < ((screenWidth / 2 + frameThickness / 2 : Int) : ℚ) ∧
      m.x - m.vx > ((screenWidth / 2 + frameThickness / 2 : Int) : ℚ) then
    if !game.isPartitionSlitOpen || decide (m.y ≤ game.partitionSlitTop) ||
        decide (m.y ≥ game.partitionSlitBottom) then
      { m with x := ((screenWidth / 2 + frameThickness / 2 : Int) : ℚ), vx := m.vx * -1 }
    else m
  else m

/-- `Molecule.reboundIfCollide`: the six tests in the order of the source,
each on the molecule as the earlier ones left it. -/
def Molecule.reboundIfCollide (m : Molecule) (game : Game) : Molecule :=
  ((((m.reboundFrameLeft.reboundFrameRight).reboundFrameTop).reboundFrameBottom).reboundPartitionLeft
    game).reboundPartitionRight game

/-- The loop of `updateMoleculeCountInCorrectArea`: `(lowCount, highCount)`
after the molecules of the list, starting from the given pair. -/
def countInCorrectArea : List Molecule → Int × Int → Int × Int
  | [], c => c
  | m :: ms, (lowCount, highCount) =>
    let lowCount :=
      if m.speedType = MoleculeSpeedLow ∧ m.x < ((screenWidth / 2 : Int) : ℚ) then lowCount + 1
      else lowCount
    let highCount :=
      if m.speedType = MoleculeSpeedHigh ∧ m.x > ((screenWidth / 2 : Int) : ℚ) then highCount + 1
      else highCount
    countInCorrectArea ms (lowCount, highCount)

/-- `Game.updateMoleculeCountInCorrectArea` (the `playAudio` argument only
selects sounds). -/
def Game.updateMoleculeCountInCorrectArea (g : Game) : Game :=
  let c := countInCorrectArea g.molecules (0, 0)
  { g with lowSpeedMoleculeCountInLeftSide := c.1, highSpeedMoleculeCountInRightSide := c.2 }

/-- The state of the molecule loop of `setUpField`. -/
structure SetUpLoop where
  molecules : List Molecule
  lowSpeedMoleculeCount : Int
  highSpeedMoleculeCount : Int
  /-- The number of `rand.Int()` calls made so far. -/
  draws : Nat

/-- The state before the first iteration of the molecule loop. -/
def SetUpLoop.init : SetUpLoop :=
  { molecules := [], lowSpeedMoleculeCount := 0, highSpeedMoleculeCount := 0, draws := 0 }

/-- The `x` of the molecule created at loop index `i` of `setUpField`, before
its conversion to `float64`; `r` is the result of `rand.Int()`. -/
def setUpFieldX (i : Nat) (r : Nat) : Int :=
  if i / 2 % 2 = 0 then
    frameLeft + moleculeRadius / 2 +
      (r : Int) % (screenWidth / 2 - frameThickness / 2 - moleculeRadius - frameLeft)
  else
    frameRight - moleculeRadius / 2 -
      (r : Int) % (frameRight - screenWidth / 2 - frameThickness / 2 - moleculeRadius)

/-- The `y` of a molecule created by `setUpField`, before its conversion to
`float64`; `r` is the result of `rand.Int()`. -/
def setUpFieldY (r : Nat) : Int :=
  frameTop + moleculeRadius / 2 + (r : Int) % (frameBottom - frameTop - moleculeRadius)

/-- The `angle` of a molecule created by `setUpField`; `r` is the result of
`rand.Int()`. -/
def setUpFieldAngle (lib : MathLib ℚ) (r : Nat) : ℚ :=
  let angle : ℚ := lib.Pi * 2 * (((r : Int) % 360 : Int) : ℚ) / 360
  let angle := if (lib.Pi / 2 - angle) ^ 2 < (lib.Pi / 6) ^ 2 then angle + lib.Pi / 3 else angle
  let angle :=
    if (3 * lib.Pi / 2 - angle) ^ 2 < (lib.Pi / 6) ^ 2 then angle + lib.Pi / 3 else angle
  angle

/-- One iteration of the molecule loop of `setUpField`, for loop index `i`. -/
def setUpFieldStep (lib : MathLib ℚ) (rand : Nat → Nat) (s : SetUpLoop) (i : Nat) : SetUpLoop :=
  let speedType := if i % 2 = 0 then MoleculeSpeedHigh else MoleculeSpeedLow
  let sp : ℚ := if i % 2 = 0 then (moleculeSpeedHighValue : ℚ) else (moleculeSpeedLowValue : ℚ)
  let high := if i % 2 = 0 then s.highSpeedMoleculeCount + 1 else s.highSpeedMoleculeCount
  let low := if i % 2 = 0 then s.lowSpeedMoleculeCount else s.lowSpeedMoleculeCount + 1
  let x : ℚ := (setUpFieldX i (rand s.draws) : ℚ)
  let y : ℚ := (setUpFieldY (rand (s.draws + 1)) : ℚ)
  let angle : ℚ := setUpFieldAngle lib (rand (s.draws + 2))
  let m : Molecule :=
    { speedType := speedType
      x := x
      y := y
      vx := sp * lib.Cos angle
      vy := sp * lib.Sin angle
      r := (moleculeRadius : ℚ) }
  { molecules := s.molecules ++ [m]
    lowSpeedMoleculeCount := low
    highSpeedMoleculeCount := high
    draws := s.draws + 3 }

/-- The molecule loop of `setUpField`: `for i := 0; i < moleculeCount; i++`. -/
def setUpFieldLoop (lib : MathLib ℚ) (rand : Nat → Nat) (moleculeCount : Int) : SetUpLoop :=
  (List.range moleculeCount.toNat).foldl (setUpFieldStep lib rand) SetUpLoop.init

/-- `Game.setUpField`. -/
def Game.setUpField (lib : MathLib ℚ) (rand : Nat → Nat) (g : Game) : Game :=
  let moleculeCount := wrapInt (g.level * 5)
  let s := setUpFieldLoop lib rand moleculeCount
  let g := { g with
    lowSpeedMoleculeCount := s.lowSpeedMoleculeCount
    highSpeedMoleculeCount := s.highSpeedMoleculeCount
    molecules := s.molecules }
  let g := g.updateMoleculeCountInCorrectArea
  let top : ℚ := ((frameBottom - partitionSlitSize + frameTop : Int) : ℚ) * (4 / 10)
  { g with
    partitionSlitTop := top
    partitionSlitBottom := top + (partitionSlitSize : ℚ)
    partitionSlitVec := (partitionSlitSpeed : ℚ)
    isPartitionSlitOpen := false }

/-- `Game.initialize`, on the zero-valued `Game` of `main`. -/
def Game.initialize (lib : MathLib ℚ) (rand : Nat → Nat) (g : Game) : Game :=
  Game.setUpField lib rand { g with mode := GameModeTitle, ticksFromModeStart := 0, level := 1 }

/-- The first statements of the "Partition slit move" block: top and bottom
advance by `partitionSlitVec`. -/
def Game.slitAdvance (g : Game) : Game :=
  { g with
    partitionSlitTop := g.partitionSlitTop + g.partitionSlitVec
    partitionSlitBottom := g.partitionSlitBottom + g.partitionSlitVec }

/-- The test `if g.partitionSlitTop < frameTop` of the "Partition slit move" block. -/
def Game.slitReboundTop (g : Game) : Game :=
  if g.partitionSlitTop < (frameTop : ℚ) then
    { g with
      partitionSlitTop := (frameTop : ℚ)
      partitionSlitBottom := (frameTop : ℚ) + (partitionSlitSize : ℚ)
      partitionSlitVec := g.partitionSlitVec * -1 }
  else g

/-- The test `if g.partitionSlitBottom > frameBottom` of the "Partition slit
move" block. -/
def Game.slitReboundBottom (g : Game) : Game :=
  if g.partitionSlitBottom > (frameBottom : ℚ) then
    { g with
      partitionSlitBottom := (frameBottom : ℚ)
      partitionSlitTop := (frameBottom : ℚ) - (partitionSlitSize : ℚ)
      partitionSlitVec := g.partitionSlitVec * -1 }
  else g

/-- The "Partition slit move" block of `Update`. -/
def Game.movePartitionSlit (g : Game) : Game :=
  if !g.isPartitionSlitOpen then g.slitAdvance.slitReboundTop.slitReboundBottom else g

/-- The input handling of the `GameModePlaying` case: a press opens the slit,
a release closes it (tested in this order). -/
def Game.handleTouch (inp : Input) (g : Game) : Game :=
  let g := if inp.isJustTouched then { g with isPartitionSlitOpen := true } else g
  let g := if inp.isJustReleased then { g with isPartitionSlitOpen := false } else g
  g

/-- The `GameModePlaying` case of `Update` up to and including the
"Partition slit move" block. -/
def Game.updatePlayingMove (inp : Input) (g : Game) : Game :=
  let g := { g with playingSec := inp.now - g.playStartTime }
  let g := g.handleTouch inp
  let g := { g with molecules := g.molecules.map Molecule.move }
  g.movePartitionSlit

/-- The `GameModePlaying` case of `Update`. -/
def Game.updatePlaying (inp : Input) (g : Game) : Game :=
  let g := g.updatePlayingMove inp
  let g := { g with molecules := g.molecules.map (fun m : Molecule => m.reboundIfCollide g) }
  let g := g.updateMoleculeCountInCorrectArea
  if !g.isPartitionSlitOpen ∧
      g.highSpeedMoleculeCountInRightSide = g.highSpeedMoleculeCount ∧
      g.lowSpeedMoleculeCountInLeftSide = g.lowSpeedMoleculeCount then
    { g with mode := GameModeComplete, ticksFromModeStart := 0 }
  else g

/-- The `GameModeComplete` case of `Update`. -/
def Game.updateComplete (lib : MathLib ℚ) (inp : Input) (g : Game) : Game :=
  let g := { g with molecules := g.molecules.map (fun m : Molecule => m.move.reboundIfCollide g) }
  if inp.isJustTouched then
    let g := { g with level := wrapInt (g.level + 1) }
    let g := g.setUpField lib inp.rand
    { g with mode := GameModeLevelStart, ticksFromModeStart := 0, playingSec := 0 }
  else g

/-- `Game.Update`. -/
def Game.Update (lib : MathLib ℚ) (inp : Input) (g : Game) : Game :=
  let g := { g with ticksFromModeStart := (g.ticksFromModeStart + 1) % 2 ^ 64 }
  match g.mode with
  | GameModeTitle =>
    if inp.isJustTouched then
      { g with mode := GameModeLevelStart, ticksFromModeStart := 0, playingSec := 0 }
    else g
  | GameModeLevelStart =>
    if g.ticksFromModeStart > 2 * inp.currentTPS % 2 ^ 64 then
      { g with
        mode := GameModePlaying
        ticksFromModeStart := 0
        playStartTime := inp.now
        playingSec := 0 }
    else g
  | GameModePlaying => g.updatePlaying inp
  | GameModeComplete => g.updateComplete lib inp

/-- The game after a sequence of ticks, one `Input` per call of `Update`. -/
def Game.run (lib : MathLib ℚ) (g : Game) (inputs : List Input) : Game :=
  inputs.foldl (fun g inp => g.Update lib inp) g

/-! ## `dotutil`: `line.go` and `pattern.go` -/

section dotutil

variable {K : Type} [LinearOrderedField K] [FloorRing K]

/-- Go's conversion `int(f)` of a `float64` whose integer part is in the range
of `int`: the fractional part is discarded (truncation toward zero). -/
def truncToInt (f : K) : Int :=
  if 0 ≤ f then ⌊f⌋ else ⌈f⌉

/-- Modelled from the spec: ebiten's `GeoM`, which is not part of the
repository. An affine map `(x, y) ↦ (a*x + b*y + tx, c*x + d*y + ty)`; each
operation is applied after the ones already recorded ("rotated by `rotation`
radians and translated to `(x,y)`", then "an additional translation"). -/
structure GeoM (K : Type) where
  a : K
  b : K
  c : K
  d : K
  tx : K
  ty : K

/-- The zero value of `GeoM`, the identity map (`&ebiten.DrawImageOptions{}`). -/
def GeoM.identity : GeoM K :=
  { a := 1, b := 0, c := 0, d := 1, tx := 0, ty := 0 }

/-- `GeoM.Scale`. -/
def GeoM.Scale (g : GeoM K) (x y : K) : GeoM K :=
  { a := g.a * x, b := g.b * x, c := g.c * y, d := g.d * y, tx := g.tx * x, ty := g.ty * y }

/-- `GeoM.Translate`. -/
def GeoM.Translate (g : GeoM K) (tx ty : K) : GeoM K :=
  { g with tx := g.tx + tx, ty := g.ty + ty }

/-- `GeoM.Rotate`: rotation by `theta` radians about the origin. -/
def GeoM.Rotate (lib : MathLib K) (g : GeoM K) (theta : K) : GeoM K :=
  { a := lib.Cos theta * g.a - lib.Sin theta * g.c
    b := lib.Cos theta * g.b - lib.Sin theta * g.d
    c := lib.Sin theta * g.a + lib.Cos theta * g.c
    d := lib.Sin theta * g.b + lib.Cos theta * g.d
    tx := lib.Cos theta * g.tx - lib.Sin theta * g.ty
    ty := lib.Sin theta * g.tx + lib.Cos theta * g.ty }

/-- `GeoM.Apply`: the image of the point `(x, y)`. -/
def GeoM.Apply (g : GeoM K) (x y : K) : K × K :=
  (g.a * x + g.b * y + g.tx, g.c * x + g.d * y + g.ty)

/-- The size of a cached backing surface (`drawLineCanvas`,
`drawPatternCanvas`), as returned by its `Size()`. -/
structure CanvasSize where
  width : Int
  height : Int
  deriving DecidableEq, Repr

/-- The surface allocated by both `init` functions: `ebiten.NewImage(100, 100)`. -/
def initCanvas : CanvasSize :=
  { width := 100, height := 100 }

/-- The statement shared by `DrawLine` and `DrawPattern`:
`if w, h := canvas.Size(); w < width || h < height
 { canvas = ebiten.NewImage(width*2, height*2) }`, for the surface that the
call goes on with when `ebiten.NewImage` returns one of the size asked
(`resizeCanvas` has the cases in which it does not). -/
def growCanvas (canvas : CanvasSize) (width height : Int) : CanvasSize :=
  if canvas.width < width ∨ canvas.height < height then
    { width := width * 2, height := height * 2 }
  else canvas

/-- ebiten's `NewImage`, which is not part of the repository: it returns a
surface of the given size, and panics (`none`) if the width or the height is
less than 1 or more than the largest size of the device, `maxImageSize`. -/
def NewImage (maxImageSize width height : Int) : Option CanvasSize :=
  if 1 ≤ width ∧ width ≤ maxImageSize ∧ 1 ≤ height ∧ height ≤ maxImageSize then
    some { width := width, height := height }
  else none

/-- The statement shared by `DrawLine` and `DrawPattern`,
`if w, h := canvas.Size(); w < width || h < height
 { canvas = ebiten.NewImage(width*2, height*2) }`, with the products as `int`
holds them: the cached surface after it, or `none` when `NewImage` panics. -/
def resizeCanvas (maxImageSize : Int) (canvas : CanvasSize) (width height : Int) :
    Option CanvasSize :=
  if canvas.width < width ∨ canvas.height < height then
    NewImage maxImageSize (wrapInt (width * 2)) (wrapInt (height * 2))
  else some canvas

/-- The `init` of `line.go` and of `pattern.go`:
`drawLineCanvas = ebiten.NewImage(100, 100)`. -/
def init (maxImageSize : Int) : Option CanvasSize :=
  NewImage maxImageSize 100 100

/-- The cached surface after `init` and a sequence of the statements
`resizeCanvas`, one for each requested width and height; `none` once a
`NewImage` has panicked. -/
def canvasAfterRequests (maxImageSize : Int) (requests : List (Int × Int)) : Option CanvasSize :=
  requests.foldl
    (fun canvas request => canvas.bind fun c => resizeCanvas maxImageSize c request.1 request.2)
    (init maxImageSize)

/-- The `float64` operations of `line.go` whose results are rounded: the sum,
the difference and `math.Pow(x, 2)`. -/
structure FloatOps (K : Type) where
  add : K → K → K
  sub : K → K → K
  sq : K → K

/-- The operations of `FloatOps` without rounding. -/
def exactOps (K : Type) [LinearOrderedField K] : FloatOps K :=
  { add := fun a b => a + b, sub := fun a b => a - b, sq := fun a => a ^ 2 }

inductive LineDotPosition where
  | LineDotPositionCenter
  | LineDotPositionLeftSide
  | LineDotPositionRightSide
  deriving DecidableEq, Repr

/-- `DrawLineOption` without its `Color`. -/
structure DrawLineOption (K : Type) where
  DotSize : K
  Interval : K
  DotPosition : LineDotPosition

/-- The first lines of `DrawLine`: the zero value for a nil `option`, then the
defaults for a zero `DotSize` and a zero `Interval`. -/
def DrawLineOption.resolve (option : Option (DrawLineOption K)) : DrawLineOption K :=
  let opt : DrawLineOption K :=
    match option with
    | some o => o
    | none => { DotSize := 0, Interval := 0, DotPosition := LineDotPosition.LineDotPositionCenter }
  let opt := if opt.DotSize = 0 then { opt with DotSize := 15 } else opt
  let opt := if opt.Interval = 0 then { opt with Interval := 2 } else opt
  opt

/-- The arguments of one call of `DrawLine`. -/
structure DrawLineCall (K : Type) where
  srcX : K
  srcY : K
  destX : K
  destY : K
  option : Option (DrawLineOption K)

/-- The `lineLength` of a call of `DrawLine`. -/
def DrawLineCall.lineLength (ops : FloatOps K) (lib : MathLib K) (call : DrawLineCall K) : K :=
  lib.Sqrt (ops.add (ops.sq (ops.sub call.srcX call.destX)) (ops.sq (ops.sub call.srcY call.destY)))

/-- The width and height that a call of `DrawLine` needs of `drawLineCanvas`:
`int(lineLength)` and `int(opt.DotSize)`. -/
def DrawLineCall.requested (ops : FloatOps K) (lib : MathLib K) (call : DrawLineCall K) :
    Int × Int :=
  (truncToInt (call.lineLength ops lib), truncToInt (DrawLineOption.resolve call.option).DotSize)

/-- The value of `drawLineCanvas` after the allocation statement of a call of
`DrawLine`; `none` when `NewImage` panics. -/
def DrawLineCall.canvasAfter (ops : FloatOps K) (lib : MathLib K) (maxImageSize : Int)
    (drawLineCanvas : CanvasSize) (call : DrawLineCall K) : Option CanvasSize :=
  resizeCanvas maxImageSize drawLineCanvas (call.requested ops lib).1 (call.requested ops lib).2

/-- The step `opt.DotSize + opt.Interval` of the dot loop of a call. -/
def DrawLineCall.stride (ops : FloatOps K) (call : DrawLineCall K) : K :=
  ops.add (DrawLineOption.resolve call.option).DotSize (DrawLineOption.resolve call.option).Interval

/-- The dot loop of `DrawLine`, `for x <= lineLength { ...; x += stride }`:
the offsets `x` at which a dot is drawn, in order. The loop need not end;
`none` is the result when `fuel` iterations do not reach its end. -/
def drawLineLoop (ops : FloatOps K) (lineLength stride : K) : Nat → K → Option (List K)
  | 0, _ => none
  | fuel + 1, x =>
    if x ≤ lineLength then
      (drawLineLoop ops lineLength stride fuel (ops.add x stride)).map (x :: ·)
    else some []

/-- The value of `x` in the dot loop after `k` times `x += stride`, from 0. -/
def dotOffset (ops : FloatOps K) (stride : K) (k : Nat) : K :=
  (fun x => ops.add x stride)^[k] 0

/-- What a call of `DrawLine` does. -/
structure LineDrawing (K : Type) where
  /-- The value of `drawLineCanvas` after the call. -/
  drawLineCanvas : CanvasSize
  /-- The width of the sub-image `canvas`. -/
  canvasWidth : Int
  /-- The height of the sub-image `canvas`. -/
  canvasHeight : Int
  /-- The side of each dot. -/
  dotSize : K
  /-- The offsets along the line of the dots drawn on `canvas`, in order. -/
  dots : List K
  /-- The transform with which `canvas` is drawn on `dst`. -/
  geoM : GeoM K

/-- `DrawLine`, given the current `drawLineCanvas`; `none` when `NewImage`
panics or when `fuel` iterations do not reach the end of the dot loop. -/
def DrawLine (ops : FloatOps K) (lib : MathLib K) (maxImageSize : Int)
    (drawLineCanvas : CanvasSize) (call : DrawLineCall K) (fuel : Nat) :
    Option (LineDrawing K) :=
  let opt := DrawLineOption.resolve call.option
  let lineLength := call.lineLength ops lib
  let angle := lib.Atan2 (ops.sub call.destY call.srcY) (ops.sub call.destX call.srcX)
  match call.canvasAfter ops lib maxImageSize drawLineCanvas with
  | none => none
  | some canvas =>
    match drawLineLoop ops lineLength (call.stride ops) fuel 0 with
    | none => none
    | some dots =>
      let o : GeoM K := GeoM.identity
      let o :=
        match opt.DotPosition with
        | LineDotPosition.LineDotPositionLeftSide => o.Translate 0 (-opt.DotSize)
        | LineDotPosition.LineDotPositionCenter => o.Translate 0 (-opt.DotSize / 2)
        | LineDotPosition.LineDotPositionRightSide => o
      let o := if angle ≠ 0 then o.Rotate lib angle else o
      let o := o.Translate call.srcX call.srcY
      some
        { drawLineCanvas := canvas
          canvasWidth := truncToInt lineLength
          canvasHeight := truncToInt opt.DotSize
          dotSize := opt.DotSize
          dots := dots
          geoM := o }

/-- The value of `drawLineCanvas` after `init` and the allocation statements
of a sequence of calls of `DrawLine`; `none` once a `NewImage` has panicked. -/
def drawLineCanvasAfter (ops : FloatOps K) (lib : MathLib K) (maxImageSize : Int)
    (calls : List (DrawLineCall K)) : Option CanvasSize :=
  calls.foldl
    (fun canvas call => canvas.bind fun c => call.canvasAfter ops lib maxImageSize c)
    (init maxImageSize)

inductive PatternPosition where
  | PatternPositionTopLeft
  | PatternPositionCenter
  deriving DecidableEq, Repr

/-- `DrawPatternOption` without its `Color`. -/
structure DrawPatternOption (K : Type) where
  DotSize : K
  DotInterval : K
  Rotate : K
  BasePosition : PatternPosition

/-- The first lines of `DrawPattern`: the zero value for a nil `option`, then
the default for a zero `DotSize`. -/
def DrawPatternOption.resolve (option : Option (DrawPatternOption K)) : DrawPatternOption K :=
  let opt : DrawPatternOption K :=
    match option with
    | some o => o
    | none =>
      { DotSize := 0, DotInterval := 0, Rotate := 0,
        BasePosition := PatternPosition.PatternPositionTopLeft }
  if opt.DotSize = 0 then { opt with DotSize := 15 } else opt

/-- The arguments of one call of `DrawPattern`. -/
structure DrawPatternCall (K : Type) where
  pattern : List (List Int)
  x : K
  y : K
  option : Option (DrawPatternOption K)

/-- The values `canvasWidth` and `canvasHeight` of a call of `DrawPattern`
whose pattern has `cols` columns in its first row and `rows` rows. -/
def patternCanvasSize (opt : DrawPatternOption K) (cols rows : Nat) : Int × Int :=
  (truncToInt ((cols : K) * (opt.DotSize + opt.DotInterval) - opt.DotInterval),
    truncToInt ((rows : K) * (opt.DotSize + opt.DotInterval) - opt.DotInterval))

/-- The dot loops of `DrawPattern`: the position `(xij, yij)` of the dot of
every cell `pattern[i][j] != 0`, row by row. -/
def patternDots (opt : DrawPatternOption K) (pattern : List (List Int)) : List (K × K) :=
  pattern.enum.flatMap fun (i, row) =>
    row.enum.filterMap fun (j, v) =>
      if v ≠ 0 then
        some ((j : K) * (opt.DotSize + opt.DotInterval), (i : K) * (opt.DotSize + opt.DotInterval))
      else none

/-- What a call of `DrawPattern` does. -/
structure PatternDrawing (K : Type) where
  /-- The value of `drawPatternCanvas` after the call. -/
  drawPatternCanvas : CanvasSize
  /-- The width of the sub-image `canvas`. -/
  canvasWidth : Int
  /-- The height of the sub-image `canvas`. -/
  canvasHeight : Int
  /-- The side of each dot. -/
  dotSize : K
  /-- The positions on `canvas` of the dots drawn, in order. -/
  dots : List (K × K)
  /-- The transform with which `canvas` is drawn on `dst`. -/
  geoM : GeoM K

/-- `DrawPattern`, given the current `drawPatternCanvas`; `none` when
`pattern[0]` is out of range. -/
def DrawPattern (lib : MathLib K) (drawPatternCanvas : CanvasSize) (call : DrawPatternCall K) :
    Option (PatternDrawing K) :=
  match call.pattern with
  | [] => none
  | row0 :: _ =>
    let opt := DrawPatternOption.resolve call.option
    let canvasWidth := (patternCanvasSize opt row0.length call.pattern.length).1
    let canvasHeight := (patternCanvasSize opt row0.length call.pattern.length).2
    let canvas := growCanvas drawPatternCanvas canvasWidth canvasHeight
    let o : GeoM K := (GeoM.identity.Rotate lib opt.Rotate).Translate call.x call.y
    let o :=
      match opt.BasePosition with
      | PatternPosition.PatternPositionCenter =>
        let r := lib.Sqrt ((canvasWidth : K) ^ 2 + (canvasHeight : K) ^ 2) / 2
        let rad := lib.Atan2 (canvasHeight : K) (canvasWidth : K)
        o.Translate (-r * lib.Cos (opt.Rotate + rad)) (-r * lib.Sin (opt.Rotate + rad))
      | PatternPosition.PatternPositionTopLeft => o
    some
      { drawPatternCanvas := canvas
        canvasWidth := canvasWidth
        canvasHeight := canvasHeight
        dotSize := opt.DotSize
        dots := patternDots opt call.pattern
        geoM := o }

/-- The width and height that a call of `DrawPattern` needs of
`drawPatternCanvas`: its `canvasWidth` and `canvasHeight`. -/
def DrawPatternCall.requested (call : DrawPatternCall K) : Int × Int :=
  patternCanvasSize (DrawPatternOption.resolve call.option) (call.pattern.headD []).length
    call.pattern.length

/-- The value of `drawPatternCanvas` after the allocation statement of a call
of `DrawPattern`; `none` when the call stops at `pattern[0]` or `NewImage`
panics. -/
def DrawPatternCall.canvasAfter (maxImageSize : Int) (drawPatternCanvas : CanvasSize)
    (call : DrawPatternCall K) : Option CanvasSize :=
  match call.pattern with
  | [] => none
  | _ :: _ => resizeCanvas maxImageSize drawPatternCanvas call.requested.1 call.requested.2

/-- The value of `drawPatternCanvas` after `init` and the allocation
statements of a sequence of calls of `DrawPattern`; `none` once a call has
panicked. -/
def drawPatternCanvasAfter (maxImageSize : Int) (calls : List (DrawPatternCall K)) :
    Option CanvasSize :=
  calls.foldl
    (fun canvas call => canvas.bind fun c => call.canvasAfter maxImageSize c)
    (init maxImageSize)

/-- An axis-aligned rectangle, from `(minX, minY)` to `(maxX, maxY)`. -/
structure Rect (K : Type) where
  minX : K
  minY : K
  maxX : K
  maxY : K

/-- The centre of a rectangle. -/
def Rect.center (r : Rect K) : K × K :=
  ((r.minX + r.maxX) / 2, (r.minY + r.maxY) / 2)

/-- The part of the dot at `p` that lies on `canvas`: `canvas` is the
sub-image `image.Rect(0, 0, canvasWidth, canvasHeight)`, and drawing on a
sub-image is confined to its bounds. -/
def dotOnCanvas (canvasWidth canvasHeight : Int) (dotSize : K) (p : K × K) : Rect K :=
  { minX := max p.1 0
    minY := max p.2 0
    maxX := min (p.1 + dotSize) (canvasWidth : K)
    maxY := min (p.2 + dotSize) (canvasHeight : K) }

end dotutil

/-! ## Predicates on the game state -/

/-- The molecule's position is inside the frame. -/
def Molecule.inFrame (m : Molecule) : Prop :=
  (frameLeft : ℚ) ≤ m.x ∧ m.x ≤ (frameRight : ℚ) ∧ (frameTop : ℚ) ≤ m.y ∧ m.y ≤ (frameBottom : ℚ)

/-- Every molecule of the game is inside the frame. -/
def Game.contained (g : Game) : Prop :=
  ∀ m ∈ g.molecules, m.inFrame

/-- The gate invariant: the slit has height `partitionSlitSize` and lies
between `frameTop` and `frameBottom`. -/
def Game.gateInvariant (g : Game) : Prop :=
  g.partitionSlitBottom - g.partitionSlitTop = (partitionSlitSize : ℚ) ∧
    g.partitionSlitTop ≥ (frameTop : ℚ) ∧ g.partitionSlitBottom ≤ (frameBottom : ℚ)

/-- The squared speed `vx*vx + vy*vy` of a molecule. -/
def Molecule.speedSq (m : Molecule) : ℚ :=
  m.vx * m.vx + m.vy * m.vy

/-- A closed-form instance of the library functions, total on `ℚ`, on which
the definitions can be evaluated. -/
def sampleLib : MathLib ℚ :=
  { Pi := 355 / 113, Cos := fun _ => 1, Sin := fun _ => 0, Sqrt := fun _ => 0,
    Atan2 := fun _ _ => 0 }

/-- An input of `Update` without press or release. -/
def idleInput : Input :=
  { isJustTouched := false, isJustReleased := false, currentTPS := 60, now := 0,
    rand := fun _ => 0 }

/-- A game in `GameModePlaying` with one fast molecule about to reach the
left face of the partition, the slit closed. -/
def sampleGame : Game :=
  { mode := GameModePlaying
    ticksFromModeStart := 0
    level := 1
    molecules := [{ speedType := MoleculeSpeedHigh, x := 311, y := 200, vx := 4, vy := 0, r := 10 }]
    partitionSlitTop := 188
    partitionSlitBottom := 238
    partitionSlitVec := 1
    isPartitionSlitOpen := false
    playStartTime := 0
    playingSec := 0
    lowSpeedMoleculeCount := 0
    highSpeedMoleculeCount := 1
    lowSpeedMoleculeCountInLeftSide := 0
    highSpeedMoleculeCountInRightSide := 0 }

/-- The molecule of `sampleGame`. -/
def sampleMolecule : Molecule :=
  { speedType := MoleculeSpeedHigh, x := 311, y := 200, vx := 4, vy := 0, r := 10 }

/-- A molecule about to cross the left face of the partition at the height of
the top edge of the slit of `sampleGame`. -/
def slitEdgeMolecule : Molecule :=
  { speedType := MoleculeSpeedHigh, x := 311, y := 188, vx := 4, vy := 0, r := 10 }

/-- The game `sampleGame` with the slit open. -/
def openGame : Game :=
  { sampleGame with isPartitionSlitOpen := true }

/-- A molecule about to cross the left face of the partition at the height of
the bottom edge of the slit of `sampleGame`. -/
def slitBottomMolecule : Molecule :=
  { speedType := MoleculeSpeedHigh, x := 311, y := 238, vx := 4, vy := 0, r := 10 }

/-- A molecule about to cross the right face of the partition at the height of
the top edge of the slit of `sampleGame`. -/
def slitEdgeMoleculeRight : Molecule :=
  { speedType := MoleculeSpeedHigh, x := 329, y := 188, vx := -4, vy := 0, r := 10 }

/-- A molecule about to cross the right face of the partition at the height of
the bottom edge of the slit of `sampleGame`. -/
def slitBottomMoleculeRight : Molecule :=
  { speedType := MoleculeSpeedHigh, x := 329, y := 238, vx := -4, vy := 0, r := 10 }

/-- What one tick does to a molecule, given the game as it is at the collision
loop: `move`, then `reboundIfCollide`. -/
def gateStep (game : Game) (m : Molecule) : Molecule :=
  m.move.reboundIfCollide game

/-- Draws of `rand.Int()` for which the first molecule of a level is created
at `x = 23 + 5 + 1`, `y = 70 + 5 + 125`, with the angle 0. -/
def tunnelDraws : Nat → Nat
  | 0 => 1
  | 1 => 125
  | _ => 0

/-- The first molecule that `setUpField` creates for the draws `tunnelDraws`
when the cosine of 0 is 1 and its sine 0: fast, at `(29, 200)`, with velocity
`(4, 0)`. -/
def tunnelMolecule : Molecule :=
  { speedType := MoleculeSpeedHigh, x := 29, y := 200, vx := 4, vy := 0, r := 10 }

/-- A horizontal line of length 50 with dots of side 60. -/
def shortThickLine (K : Type) [LinearOrderedField K] : DrawLineCall K :=
  { srcX := 0, srcY := 0, destX := 50, destY := 0
    option := some
      { DotSize := 60, Interval := 0, DotPosition := LineDotPosition.LineDotPositionCenter } }

/-- A horizontal line of length 200 with the default options. -/
def longThinLine (K : Type) [LinearOrderedField K] : DrawLineCall K :=
  { srcX := 0, srcY := 0, destX := 200, destY := 0, option := none }

/-- A horizontal line of length 10 with dots of side 50. -/
def shortTallLine (K : Type) [LinearOrderedField K] : DrawLineCall K :=
  { srcX := 0, srcY := 0, destX := 10, destY := 0
    option := some
      { DotSize := 50, Interval := 0, DotPosition := LineDotPosition.LineDotPositionCenter } }

/-- A largest surface size of a device. -/
def sampleMaxImageSize : Int := 16384

/-- The line of the example: from `(0,0)` to `(100,0)` with `DotSize` 10 and
`Interval` 0. -/
def exampleLine (K : Type) [LinearOrderedField K] : DrawLineCall K :=
  { srcX := 0, srcY := 0, destX := 100, destY := 0
    option := some
      { DotSize := 10, Interval := 0, DotPosition := LineDotPosition.LineDotPositionCenter } }

/-- A pattern of one row of twenty cells, drawn with the default options. -/
def widePattern (K : Type) [LinearOrderedField K] : DrawPatternCall K :=
  { pattern := [List.replicate 20 1], x := 0, y := 0, option := none }

/-- A pattern of twenty rows of one cell, drawn with the default options. -/
def tallPattern (K : Type) [LinearOrderedField K] : DrawPatternCall K :=
  { pattern := List.replicate 20 [1], x := 0, y := 0, option := none }

/-- The single-cell pattern `[[1]]` drawn at `(7, 9)` with its centre as base
position, `DotSize` 15 and no rotation. -/
def singleDot (K : Type) [LinearOrderedField K] : DrawPatternCall K :=
  { pattern := [[1]], x := 7, y := 9
    option := some
      { DotSize := 15, DotInterval := 0, Rotate := 0,
        BasePosition := PatternPosition.PatternPositionCenter } }

/-- A game in `GameModeComplete`, the slit closed, whose one fast molecule is
on the right of the centre line, inside the thickness of the partition, and
moves left. -/
def completeGame : Game :=
  { mode := GameModeComplete
    ticksFromModeStart := 0
    level := 1
    molecules := [{ speedType := MoleculeSpeedHigh, x := 321, y := 200, vx := -4, vy := 0, r := 10 }]
    partitionSlitTop := 188
    partitionSlitBottom := 238
    partitionSlitVec := 1
    isPartitionSlitOpen := false
    playStartTime := 0
    playingSec := 0
    lowSpeedMoleculeCount := 0
    highSpeedMoleculeCount := 1
    lowSpeedMoleculeCountInLeftSide := 0
    highSpeedMoleculeCountInRightSide := 1 }

/-- An input of `Update` in which the activation input is just pressed. -/
def pressInput : Input :=
  { isJustTouched := true, isJustReleased := false, currentTPS := 60, now := 0,
    rand := fun _ => 0 }

/-- The game `sampleGame` at a level whose fivefold is `2^64 + 4`. -/
def hugeLevelGame : Game :=
  { sampleGame with level := 3689348814741910324 }

/-- The game `completeGame` at the largest level that `int` holds, `2^63 - 1`. -/
def maxLevelGame : Game :=
  { completeGame with level := 9223372036854775807 }

/-! # Theorems -/

/-! ## Stages of `reboundIfCollide` and containment -/

theorem reboundFrameLeft_spec (m : Molecule) :
    m.reboundFrameLeft.x = max m.x 23 ∧ m.reboundFrameLeft.y = m.y ∧
      (m.reboundFrameLeft.vx = m.vx ∨ m.reboundFrameLeft.vx = -m.vx) ∧
      m.reboundFrameLeft.vy = m.vy ∧ m.reboundFrameLeft.speedType = m.speedType := by
  unfold Molecule.reboundFrameLeft
  split_ifs with h
  · norm_num at h
    simp [max_eq_right h.le]
  · norm_num at h
    simp [max_eq_left h]

theorem reboundFrameRight_spec (m : Molecule) :
    m.reboundFrameRight.x = min m.x 617 ∧ m.reboundFrameRight.y = m.y ∧
      (m.reboundFrameRight.vx = m.vx ∨ m.reboundFrameRight.vx = -m.vx) ∧
      m.reboundFrameRight.vy = m.vy ∧ m.reboundFrameRight.speedType = m.speedType := by
  unfold Molecule.reboundFrameRight
  split_ifs with h
  · norm_num at h
    norm_num [min_eq_right h.le]
  · norm_num at h
    simp [min_eq_left h]

theorem reboundFrameTop_spec (m : Molecule) :
    m.reboundFrameTop.x = m.x ∧ m.reboundFrameTop.y = max m.y 70 ∧
      m.reboundFrameTop.vx = m.vx ∧
      (m.reboundFrameTop.vy = m.vy ∨ m.reboundFrameTop.vy = -m.vy) ∧
      m.reboundFrameTop.speedType = m.speedType := by
  unfold Molecule.reboundFrameTop
  split_ifs with h
  · norm_num at h
    simp [max_eq_right h.le]
  · norm_num at h
    simp [max_eq_left h]

theorem reboundFrameBottom_spec (m : Molecule) :
    m.reboundFrameBottom.x = m.x ∧ m.reboundFrameBottom.y = min m.y 450 ∧
      m.reboundFrameBottom.vx = m.vx ∧
      (m.reboundFrameBottom.vy = m.vy ∨ m.reboundFrameBottom.vy = -m.vy) ∧
      m.reboundFrameBottom.speedType = m.speedType := by
  unfold Molecule.reboundFrameBottom
  split_ifs with h
  · norm_num at h
    norm_num [min_eq_right h.le]
  · norm_num at h
    simp [min_eq_left h]

theorem reboundPartitionLeft_spec (m : Molecule) (game : Game) :
    ((m.reboundPartitionLeft game).x = m.x ∧ (m.reboundPartitionLeft game).vx = m.vx ∨
        (m.reboundPartitionLeft game).x = 313 ∧ (m.reboundPartitionLeft game).vx = -m.vx) ∧
      (m.reboundPartitionLeft game).y = m.y ∧ (m.reboundPartitionLeft game).vy = m.vy ∧
      (m.reboundPartitionLeft game).speedType = m.speedType := by
  unfold Molecule.reboundPartitionLeft
  split_ifs <;> norm_num

theorem reboundPartitionRight_spec (m : Molecule) (game : Game) :
    ((m.reboundPartitionRight game).x = m.x ∧ (m.reboundPartitionRight game).vx = m.vx ∨
        (m.reboundPartitionRight game).x = 327 ∧ (m.reboundPartitionRight game).vx = -m.vx) ∧
      (m.reboundPartitionRight game).y = m.y ∧ (m.reboundPartitionRight game).vy = m.vy ∧
      (m.reboundPartitionRight game).speedType = m.speedType := by
  unfold Molecule.reboundPartitionRight
  split_ifs <;> norm_num

theorem reboundIfCollide_inFrame (m : Molecule) (game : Game) :
    (m.reboundIfCollide game).inFrame := by
  unfold Molecule.reboundIfCollide Molecule.inFrame
  obtain ⟨hx6, hy6, -, -⟩ := reboundPartitionRight_spec
    ((((m.reboundFrameLeft.reboundFrameRight).reboundFrameTop).reboundFrameBottom).reboundPartitionLeft
      game) game
  obtain ⟨hx5, hy5, -, -⟩ := reboundPartitionLeft_spec
    (((m.reboundFrameLeft.reboundFrameRight).reboundFrameTop).reboundFrameBottom) game
  obtain ⟨hx4, hy4, -, -⟩ := reboundFrameBottom_spec
    ((m.reboundFrameLeft.reboundFrameRight).reboundFrameTop)
  obtain ⟨hx3, hy3, -, -⟩ := reboundFrameTop_spec (m.reboundFrameLeft.reboundFrameRight)
  obtain ⟨hx2, hy2, -, -⟩ := reboundFrameRight_spec m.reboundFrameLeft
  obtain ⟨hx1, hy1, -, -⟩ := reboundFrameLeft_spec m
  have hxa : (23 : ℚ) ≤ m.reboundFrameLeft.reboundFrameRight.x ∧
      m.reboundFrameLeft.reboundFrameRight.x ≤ 617 := by
    rw [hx2, hx1]
    exact ⟨le_min (le_max_right _ _) (by norm_num), min_le_right _ _⟩
  have hya : (70 : ℚ) ≤ m.reboundFrameLeft.reboundFrameRight.reboundFrameTop.reboundFrameBottom.y ∧
      m.reboundFrameLeft.reboundFrameRight.reboundFrameTop.reboundFrameBottom.y ≤ 450 := by
    rw [hy4, hy3]
    exact ⟨le_min (le_max_right _ _) (by norm_num), min_le_right _ _⟩
  rw [← hx3, ← hx4] at hxa
  rw [hy6, hy5]
  norm_num
  refine ⟨?_, ?_, hya.1, hya.2⟩
  · rcases hx6 with ⟨h6, -⟩ | ⟨h6, -⟩ <;> rcases hx5 with ⟨h5, -⟩ | ⟨h5, -⟩ <;>
      simp only [h6, h5] <;> first | exact hxa.1 | norm_num
  · rcases hx6 with ⟨h6, -⟩ | ⟨h6, -⟩ <;> rcases hx5 with ⟨h5, -⟩ | ⟨h5, -⟩ <;>
      simp only [h6, h5] <;> first | exact hxa.2 | norm_num

theorem setUpFieldX_bounds (i r : Nat) :
    28 ≤ setUpFieldX i r ∧ setUpFieldX i r ≤ 612 ∧
      (i / 2 % 2 = 0 → setUpFieldX i r ≤ 307) ∧ (i / 2 % 2 ≠ 0 → 333 ≤ setUpFieldX i r) := by
  unfold setUpFieldX
  dsimp only [frameLeft, frameRight, moleculeRadius, screenWidth, frameThickness]
  split_ifs with h <;> omega

theorem setUpFieldY_bounds (r : Nat) : 75 ≤ setUpFieldY r ∧ setUpFieldY r ≤ 444 := by
  unfold setUpFieldY
  dsimp only [frameTop, frameBottom, moleculeRadius, screenHeight]
  omega

theorem setUpFieldStep_spec (lib : MathLib ℚ) (rand : Nat → Nat) (s : SetUpLoop) (i : Nat) :
    ∃ m : Molecule, (setUpFieldStep lib rand s i).molecules = s.molecules ++ [m] ∧
      m.inFrame ∧ m.speedType = (if i % 2 = 0 then MoleculeSpeedHigh else MoleculeSpeedLow) ∧
      (setUpFieldStep lib rand s i).highSpeedMoleculeCount =
        (if i % 2 = 0 then s.highSpeedMoleculeCount + 1 else s.highSpeedMoleculeCount) ∧
      (setUpFieldStep lib rand s i).lowSpeedMoleculeCount =
        (if i % 2 = 0 then s.lowSpeedMoleculeCount else s.lowSpeedMoleculeCount + 1) := by
  refine ⟨_, rfl, ⟨?_, ?_, ?_, ?_⟩, rfl, rfl, rfl⟩
  · have h := (setUpFieldX_bounds i (rand s.draws)).1
    show ((23 : Int) : ℚ) ≤ ((setUpFieldX i (rand s.draws) : Int) : ℚ)
    exact_mod_cast (by omega : (23 : Int) ≤ setUpFieldX i (rand s.draws))
  · have h := (setUpFieldX_bounds i (rand s.draws)).2.1
    show ((setUpFieldX i (rand s.draws) : Int) : ℚ) ≤ ((640 - 23 : Int) : ℚ)
    exact_mod_cast (by omega : setUpFieldX i (rand s.draws) ≤ (640 - 23 : Int))
  · have h := (setUpFieldY_bounds (rand (s.draws + 1))).1
    show ((70 : Int) : ℚ) ≤ ((setUpFieldY (rand (s.draws + 1)) : Int) : ℚ)
    exact_mod_cast (by omega : (70 : Int) ≤ setUpFieldY (rand (s.draws + 1)))
  · have h := (setUpFieldY_bounds (rand (s.draws + 1))).2
    show ((setUpFieldY (rand (s.draws + 1)) : Int) : ℚ) ≤ ((480 - 30 : Int) : ℚ)
    exact_mod_cast (by omega : setUpFieldY (rand (s.draws + 1)) ≤ (480 - 30 : Int))

/-- The loop invariant of the molecule loop of `setUpField`, after `n` iterations. -/
theorem setUpFieldLoop_range (lib : MathLib ℚ) (rand : Nat → Nat) (n : Nat) :
    ((List.range n).foldl (setUpFieldStep lib rand) SetUpLoop.init).molecules.length = n ∧
      ((List.range n).foldl (setUpFieldStep lib rand) SetUpLoop.init).highSpeedMoleculeCount =
        (((n + 1) / 2 : Nat) : Int) ∧
      ((List.range n).foldl (setUpFieldStep lib rand) SetUpLoop.init).lowSpeedMoleculeCount =
        ((n / 2 : Nat) : Int) ∧
      (∀ m ∈ ((List.range n).foldl (setUpFieldStep lib rand) SetUpLoop.init).molecules,
        m.inFrame) ∧
      ∀ i m, ((List.range n).foldl (setUpFieldStep lib rand) SetUpLoop.init).molecules[i]? =
        some m → m.speedType = (if i % 2 = 0 then MoleculeSpeedHigh else MoleculeSpeedLow) := by
  induction n with
  | zero => simp [SetUpLoop.init]
  | succ n ih =>
    obtain ⟨hlen, hhigh, hlow, hin, hidx⟩ := ih
    rw [List.range_succ, List.foldl_append, List.foldl_cons, List.foldl_nil]
    obtain ⟨m, hm, hmin, hmty, hh, hl⟩ := setUpFieldStep_spec lib rand
      ((List.range n).foldl (setUpFieldStep lib rand) SetUpLoop.init) n
    rw [hm, hh, hl, hhigh, hlow]
    refine ⟨by simp [hlen], ?_, ?_, ?_, ?_⟩
    · split_ifs with h <;> push_cast <;> omega
    · split_ifs with h <;> push_cast <;> omega
    · intro m0 hm0
      rcases List.mem_append.1 hm0 with h | h
      · exact hin m0 h
      · rw [List.mem_singleton.1 h]
        exact hmin
    · intro i m0 hi
      by_cases hlt : i < n
      · rw [List.getElem?_append_left (by omega)] at hi
        exact hidx i m0 hi
      · rw [List.getElem?_append_right (by omega), hlen] at hi
        have hi0 : i - n = 0 := by
          by_contra hne
          obtain ⟨k, hk⟩ := Nat.exists_eq_succ_of_ne_zero hne
          rw [hk] at hi
          simp at hi
        rw [hi0] at hi
        simp at hi
        have hin' : i = n := by omega
        rw [← hi, hin']
        exact hmty

theorem setUpField_molecules (lib : MathLib ℚ) (rand : Nat → Nat) (g : Game) :
    (g.setUpField lib rand).molecules =
      ((List.range (wrapInt (g.level * 5)).toNat).foldl (setUpFieldStep lib rand) SetUpLoop.init).molecules :=
  rfl

theorem setUpField_contained (lib : MathLib ℚ) (rand : Nat → Nat) (g : Game) :
    (g.setUpField lib rand).contained := by
  unfold Game.contained
  rw [setUpField_molecules]
  exact (setUpFieldLoop_range lib rand _).2.2.2.1

theorem slitReboundTop_frame (g : Game) :
    g.slitReboundTop.molecules = g.molecules ∧
      g.slitReboundTop.isPartitionSlitOpen = g.isPartitionSlitOpen ∧
      g.slitReboundTop.mode = g.mode ∧ g.slitReboundTop.level = g.level ∧
      g.slitReboundTop.highSpeedMoleculeCount = g.highSpeedMoleculeCount ∧
      g.slitReboundTop.lowSpeedMoleculeCount = g.lowSpeedMoleculeCount := by
  unfold Game.slitReboundTop
  split_ifs <;> simp

theorem slitReboundBottom_frame (g : Game) :
    g.slitReboundBottom.molecules = g.molecules ∧
      g.slitReboundBottom.isPartitionSlitOpen = g.isPartitionSlitOpen ∧
      g.slitReboundBottom.mode = g.mode ∧ g.slitReboundBottom.level = g.level ∧
      g.slitReboundBottom.highSpeedMoleculeCount = g.highSpeedMoleculeCount ∧
      g.slitReboundBottom.lowSpeedMoleculeCount = g.lowSpeedMoleculeCount := by
  unfold Game.slitReboundBottom
  split_ifs <;> simp

theorem movePartitionSlit_frame (g : Game) :
    g.movePartitionSlit.molecules = g.molecules ∧
      g.movePartitionSlit.isPartitionSlitOpen = g.isPartitionSlitOpen ∧
      g.movePartitionSlit.mode = g.mode ∧ g.movePartitionSlit.level = g.level ∧
      g.movePartitionSlit.highSpeedMoleculeCount = g.highSpeedMoleculeCount ∧
      g.movePartitionSlit.lowSpeedMoleculeCount = g.lowSpeedMoleculeCount := by
  unfold Game.movePartitionSlit
  split_ifs
  · obtain ⟨h1, h2, h3, h4, h5, h6⟩ := slitReboundBottom_frame g.slitAdvance.slitReboundTop
    obtain ⟨k1, k2, k3, k4, k5, k6⟩ := slitReboundTop_frame g.slitAdvance
    rw [h1, h2, h3, h4, h5, h6, k1, k2, k3, k4, k5, k6]
    simp [Game.slitAdvance]
  · simp

theorem handleTouch_frame (inp : Input) (g : Game) :
    (g.handleTouch inp).molecules = g.molecules ∧ (g.handleTouch inp).mode = g.mode ∧
      (g.handleTouch inp).level = g.level ∧
      (g.handleTouch inp).highSpeedMoleculeCount = g.highSpeedMoleculeCount ∧
      (g.handleTouch inp).lowSpeedMoleculeCount = g.lowSpeedMoleculeCount ∧
      (g.handleTouch inp).partitionSlitTop = g.partitionSlitTop ∧
      (g.handleTouch inp).partitionSlitBottom = g.partitionSlitBottom ∧
      (g.handleTouch inp).partitionSlitVec = g.partitionSlitVec := by
  unfold Game.handleTouch
  split_ifs <;> simp

theorem updatePlayingMove_molecules (inp : Input) (g : Game) :
    (g.updatePlayingMove inp).molecules = g.molecules.map Molecule.move := by
  unfold Game.updatePlayingMove
  simp only [(movePartitionSlit_frame _).1, (handleTouch_frame inp _).1]

theorem updatePlaying_molecules (inp : Input) (g : Game) :
    (g.updatePlaying inp).molecules =
      g.molecules.map (fun m : Molecule => m.move.reboundIfCollide (g.updatePlayingMove inp)) := by
  unfold Game.updatePlaying
  simp only [Game.updateMoleculeCountInCorrectArea, updatePlayingMove_molecules, List.map_map]
  split_ifs <;> rfl

theorem updateComplete_molecules (lib : MathLib ℚ) (inp : Input) (g : Game) :
    (g.updateComplete lib inp).molecules =
      if inp.isJustTouched then
        ({ g with level := wrapInt (g.level + 1) } : Game).setUpField lib inp.rand |>.molecules
      else g.molecules.map (fun m : Molecule => m.move.reboundIfCollide g) := by
  unfold Game.updateComplete
  split_ifs <;> rfl

theorem Update_contained (lib : MathLib ℚ) (inp : Input) (g : Game) (h : g.contained) :
    (g.Update lib inp).contained := by
  unfold Game.Update
  simp only
  split
  · split_ifs <;> exact h
  · split_ifs <;> exact h
  · intro m hm
    rw [updatePlaying_molecules] at hm
    obtain ⟨m0, -, rfl⟩ := List.mem_map.1 hm
    exact reboundIfCollide_inFrame _ _
  · intro m hm
    rw [updateComplete_molecules] at hm
    split_ifs at hm
    · exact setUpField_contained lib inp.rand _ m hm
    · obtain ⟨m0, -, rfl⟩ := List.mem_map.1 hm
      exact reboundIfCollide_inFrame _ _

theorem run_contained (lib : MathLib ℚ) (inputs : List Input) :
    ∀ g : Game, g.contained → (g.run lib inputs).contained := by
  induction inputs with
  | nil => intro g h; exact h
  | cons inp rest ih =>
    intro g h
    exact ih _ (Update_contained lib inp g h)

/-- C1. Containment is an invariant of the reachable states: after `setUpField`
(any level, any random draws) and after any number of subsequent `Update`
ticks (any inputs, any mode), every molecule has `frameLeft ≤ x ≤ frameRight`
and `frameTop ≤ y ≤ frameBottom`, that is `23 ≤ x ≤ 617` and `70 ≤ y ≤ 450`. -/
theorem containment_reachable (lib : MathLib ℚ) (rand : Nat → Nat) (g0 : Game)
    (inputs : List Input) :
    ((g0.setUpField lib rand).run lib inputs).contained ∧
      ((frameLeft : ℚ) = 23 ∧ (frameRight : ℚ) = 617 ∧ (frameTop : ℚ) = 70 ∧
        (frameBottom : ℚ) = 450) := by
  refine ⟨run_contained lib inputs _ (setUpField_contained lib rand g0), ?_⟩
  norm_num

/-! ## Speed -/

theorem speedSq_eq_of_sign {a b : Molecule} (hx : a.vx = b.vx ∨ a.vx = -b.vx)
    (hy : a.vy = b.vy ∨ a.vy = -b.vy) : a.speedSq = b.speedSq := by
  unfold Molecule.speedSq
  rcases hx with h | h <;> rcases hy with k | k <;> rw [h, k] <;> ring

theorem sign_trans {a b c : ℚ} (h1 : a = b ∨ a = -b) (h2 : b = c ∨ b = -c) :
    a = c ∨ a = -c := by
  rcases h1 with h | h <;> rcases h2 with k | k <;> rw [h, k] <;> simp

theorem reboundIfCollide_velocity (m : Molecule) (game : Game) :
    ((m.reboundIfCollide game).vx = m.vx ∨ (m.reboundIfCollide game).vx = -m.vx) ∧
      ((m.reboundIfCollide game).vy = m.vy ∨ (m.reboundIfCollide game).vy = -m.vy) ∧
      (m.reboundIfCollide game).speedType = m.speedType := by
  unfold Molecule.reboundIfCollide
  obtain ⟨hx6, -, hvy6, ht6⟩ := reboundPartitionRight_spec
    ((((m.reboundFrameLeft.reboundFrameRight).reboundFrameTop).reboundFrameBottom).reboundPartitionLeft
      game) game
  obtain ⟨hx5, -, hvy5, ht5⟩ := reboundPartitionLeft_spec
    (((m.reboundFrameLeft.reboundFrameRight).reboundFrameTop).reboundFrameBottom) game
  obtain ⟨-, -, hvx4, hvy4, ht4⟩ := reboundFrameBottom_spec
    ((m.reboundFrameLeft.reboundFrameRight).reboundFrameTop)
  obtain ⟨-, -, hvx3, hvy3, ht3⟩ := reboundFrameTop_spec (m.reboundFrameLeft.reboundFrameRight)
  obtain ⟨-, -, hvx2, hvy2, ht2⟩ := reboundFrameRight_spec m.reboundFrameLeft
  obtain ⟨-, -, hvx1, hvy1, ht1⟩ := reboundFrameLeft_spec m
  have h6 := hx6.imp (fun h => h.2) (fun h => h.2)
  have h5 := hx5.imp (fun h => h.2) (fun h => h.2)
  rw [hvx4, hvx3] at h5
  refine ⟨sign_trans h6 (sign_trans h5 (sign_trans hvx2 hvx1)), ?_, ?_⟩
  · rw [hvy6, hvy5]
    have := sign_trans hvy4 hvy3
    rw [hvy2, hvy1] at this
    exact this
  · rw [ht6, ht5, ht4, ht3, ht2, ht1]

theorem move_reboundIfCollide_speedSq (m : Molecule) (game : Game) :
    (m.move.reboundIfCollide game).speedSq = m.speedSq := by
  obtain ⟨hx, hy, -⟩ := reboundIfCollide_velocity m.move game
  exact speedSq_eq_of_sign hx hy

/-- C2. In every `Update` tick, whatever the mode, the inputs, the gate and
the positions, each molecule has the same squared speed `vx*vx + vy*vy` after
the tick as before it (the tick of the Complete to LevelStart transition, which
replaces the molecules by new ones, has no molecule to compare); `move` leaves
`vx` and `vy` untouched and `reboundIfCollide` only negates `vx` and/or `vy`. -/
theorem squared_speed_preserved (lib : MathLib ℚ) (inp : Input) (g : Game)
    (h : ¬(g.mode = GameModeComplete ∧ inp.isJustTouched = true)) :
    (g.Update lib inp).molecules.map Molecule.speedSq = g.molecules.map Molecule.speedSq ∧
      (∀ m : Molecule, m.move.vx = m.vx ∧ m.move.vy = m.vy) ∧
      ∀ (m : Molecule) (game : Game),
        ((m.reboundIfCollide game).vx = m.vx ∨ (m.reboundIfCollide game).vx = -m.vx) ∧
          ((m.reboundIfCollide game).vy = m.vy ∨ (m.reboundIfCollide game).vy = -m.vy) ∧
          (m.reboundIfCollide game).speedSq = m.speedSq := by
  refine ⟨?_, fun m => ⟨rfl, rfl⟩, fun m game => ?_⟩
  · unfold Game.Update
    simp only
    split
    · split_ifs <;> rfl
    · split_ifs <;> rfl
    · rw [updatePlaying_molecules, List.map_map]
      exact List.map_congr_left fun m _ => move_reboundIfCollide_speedSq m _
    · rename_i hmode
      have hmode' : g.mode = GameModeComplete := hmode
      have ht : inp.isJustTouched = false := by
        cases hb : inp.isJustTouched
        · rfl
        · exact absurd ⟨hmode', hb⟩ h
      rw [updateComplete_molecules, ht]
      simp only [Bool.false_eq_true, if_false, List.map_map]
      exact List.map_congr_left fun m _ => move_reboundIfCollide_speedSq m _
  · obtain ⟨hx, hy, -⟩ := reboundIfCollide_velocity m game
    exact ⟨hx, hy, speedSq_eq_of_sign hx hy⟩

theorem squared_speed_preserved_witness :
    ¬(sampleGame.mode = GameModeComplete ∧ idleInput.isJustTouched = true) ∧
      (sampleGame.Update sampleLib idleInput).molecules.map Molecule.speedSq =
        sampleGame.molecules.map Molecule.speedSq :=
  ⟨by decide, (squared_speed_preserved sampleLib idleInput sampleGame (by decide)).1⟩

/-! ## Gate -/

theorem gateInvariant_congr {g1 g2 : Game} (ht : g1.partitionSlitTop = g2.partitionSlitTop)
    (hb : g1.partitionSlitBottom = g2.partitionSlitBottom) (h : g2.gateInvariant) :
    g1.gateInvariant := by
  unfold Game.gateInvariant at *
  rw [ht, hb]
  exact h

theorem movePartitionSlit_gateInvariant (g : Game) (h : g.gateInvariant) :
    g.movePartitionSlit.gateInvariant := by
  unfold Game.gateInvariant at *
  obtain ⟨h1, h2, h3⟩ := h
  norm_num at h1 h2 h3
  unfold Game.movePartitionSlit Game.slitReboundBottom Game.slitReboundTop Game.slitAdvance
  split_ifs <;> norm_num at * <;> (refine ⟨?_, ?_, ?_⟩ <;> linarith)

theorem setUpField_gateInvariant (lib : MathLib ℚ) (rand : Nat → Nat) (g : Game) :
    (g.setUpField lib rand).gateInvariant := by
  unfold Game.gateInvariant Game.setUpField
  norm_num

theorem updatePlaying_gate (inp : Input) (g : Game) :
    (g.updatePlaying inp).partitionSlitTop = (g.updatePlayingMove inp).partitionSlitTop ∧
      (g.updatePlaying inp).partitionSlitBottom = (g.updatePlayingMove inp).partitionSlitBottom ∧
      (g.updatePlaying inp).partitionSlitVec = (g.updatePlayingMove inp).partitionSlitVec ∧
      (g.updatePlaying inp).isPartitionSlitOpen = (g.updatePlayingMove inp).isPartitionSlitOpen := by
  unfold Game.updatePlaying
  simp only [Game.updateMoleculeCountInCorrectArea]
  split_ifs <;> simp

theorem updatePlayingMove_gateInvariant (inp : Input) (g : Game) (h : g.gateInvariant) :
    (g.updatePlayingMove inp).gateInvariant := by
  unfold Game.updatePlayingMove
  apply movePartitionSlit_gateInvariant
  obtain ⟨-, -, -, -, -, ht, hb, -⟩ :=
    handleTouch_frame inp { g with playingSec := inp.now - g.playStartTime }
  exact gateInvariant_congr ht hb h

theorem Update_gateInvariant (lib : MathLib ℚ) (inp : Input) (g : Game) (h : g.gateInvariant) :
    (g.Update lib inp).gateInvariant := by
  unfold Game.Update
  simp only
  split
  · split_ifs <;> exact h
  · split_ifs <;> exact h
  · obtain ⟨ht, hb, -, -⟩ := updatePlaying_gate inp
      { g with ticksFromModeStart := (g.ticksFromModeStart + 1) % 2 ^ 64 }
    exact gateInvariant_congr ht hb (updatePlayingMove_gateInvariant inp _ h)
  · unfold Game.updateComplete
    split_ifs
    · unfold Game.gateInvariant Game.setUpField
      norm_num
    · exact h

/-- C3. The gate invariant `partitionSlitBottom - partitionSlitTop ==
partitionSlitSize`, `partitionSlitTop >= frameTop` and `partitionSlitBottom <=
frameBottom` holds after `setUpField`, for every level and all draws, and
every `Update` tick preserves it, in every mode, for every input and whether
the gate is open or closed. -/
theorem gate_invariant (lib : MathLib ℚ) (rand : Nat → Nat) (inp : Input) (g0 g : Game)
    (h : g.gateInvariant) :
    (g0.setUpField lib rand).gateInvariant ∧ (g.Update lib inp).gateInvariant :=
  ⟨setUpField_gateInvariant lib rand g0, Update_gateInvariant lib inp g h⟩

theorem gate_invariant_witness :
    sampleGame.gateInvariant ∧
      ((sampleGame.setUpField sampleLib idleInput.rand).gateInvariant ∧
        (sampleGame.Update sampleLib idleInput).gateInvariant) :=
  ⟨by norm_num [Game.gateInvariant, sampleGame],
    gate_invariant sampleLib idleInput.rand idleInput sampleGame sampleGame
      (by norm_num [Game.gateInvariant, sampleGame])⟩

/-! ## The partition -/

theorem reboundFrameLeft_id (m : Molecule) (h : (23 : ℚ) ≤ m.x) : m.reboundFrameLeft = m := by
  unfold Molecule.reboundFrameLeft
  rw [if_neg]
  norm_num
  exact h

theorem reboundFrameRight_id (m : Molecule) (h : m.x ≤ 617) : m.reboundFrameRight = m := by
  unfold Molecule.reboundFrameRight
  rw [if_neg]
  norm_num
  exact h

theorem reboundFrameTop_id (m : Molecule) (h : (70 : ℚ) ≤ m.y) : m.reboundFrameTop = m := by
  unfold Molecule.reboundFrameTop
  rw [if_neg]
  norm_num
  exact h

theorem reboundFrameBottom_id (m : Molecule) (h : m.y ≤ 450) : m.reboundFrameBottom = m := by
  unfold Molecule.reboundFrameBottom
  rw [if_neg]
  norm_num
  exact h

theorem reboundPartitionLeft_id (m : Molecule) (game : Game)
    (h : ¬(313 < m.x ∧ m.x - m.vx < 313)) : m.reboundPartitionLeft game = m := by
  unfold Molecule.reboundPartitionLeft
  rw [if_neg]
  norm_num
  simpa using h

theorem reboundPartitionRight_id (m : Molecule) (game : Game)
    (h : ¬(m.x < 327 ∧ 327 < m.x - m.vx)) : m.reboundPartitionRight game = m := by
  unfold Molecule.reboundPartitionRight
  rw [if_neg]
  norm_num
  simpa using h

theorem reboundPartitionLeft_admitted (m : Molecule) (game : Game)
    (ho : game.isPartitionSlitOpen = true) (h1 : game.partitionSlitTop < m.y)
    (h2 : m.y < game.partitionSlitBottom) : m.reboundPartitionLeft game = m := by
  unfold Molecule.reboundPartitionLeft
  split_ifs with ha hb
  · simp [ho, not_le.2 h1, not_le.2 h2] at hb
  · rfl
  · rfl

theorem reboundPartitionRight_admitted (m : Molecule) (game : Game)
    (ho : game.isPartitionSlitOpen = true) (h1 : game.partitionSlitTop < m.y)
    (h2 : m.y < game.partitionSlitBottom) : m.reboundPartitionRight game = m := by
  unfold Molecule.reboundPartitionRight
  split_ifs with ha hb
  · simp [ho, not_le.2 h1, not_le.2 h2] at hb
  · rfl
  · rfl

/-- A tick takes the molecule at `(x, 200)` with velocity `(4, 0)` to
`(x + 4, 200)` with the same velocity, whatever the gate, unless it goes from
the left of the left face (313) to beyond it: no test fires when it starts on
the face or between the faces. -/
theorem gateStep_free (game : Game) (x : ℚ)
    (h1 : 23 ≤ x + 4) (h2 : x + 4 ≤ 617) (h3 : x ≤ 309 ∨ 313 ≤ x) :
    gateStep game { speedType := MoleculeSpeedHigh, x := x, y := 200, vx := 4, vy := 0, r := 10 } =
      { speedType := MoleculeSpeedHigh, x := x + 4, y := 200, vx := 4, vy := 0, r := 10 } := by
  have hm : Molecule.move
      { speedType := MoleculeSpeedHigh, x := x, y := 200, vx := 4, vy := 0, r := 10 } =
      { speedType := MoleculeSpeedHigh, x := x + 4, y := 200, vx := 4, vy := 0, r := 10 } := by
    simp [Molecule.move]
  unfold gateStep Molecule.reboundIfCollide
  rw [hm, reboundFrameLeft_id _ h1, reboundFrameRight_id _ h2,
    reboundFrameTop_id _ (by norm_num), reboundFrameBottom_id _ (by norm_num),
    reboundPartitionLeft_id _ game (by
      rintro ⟨ha, hb⟩
      simp only at ha hb
      rcases h3 with h | h <;> linarith),
    reboundPartitionRight_id _ game (by
      rintro ⟨ha, hb⟩
      simp only at ha hb
      linarith)]

theorem gateStep_iterate (game : Game) :
    ∀ k : Nat, k ≤ 147 →
      (gateStep game)^[k] tunnelMolecule =
        { speedType := MoleculeSpeedHigh, x := 29 + 4 * (k : ℚ), y := 200, vx := 4, vy := 0,
          r := 10 } := by
  intro k
  induction k with
  | zero =>
    intro _
    simp [tunnelMolecule]
  | succ k ih =>
    intro hk
    have hk' : (k : ℚ) ≤ 146 := by exact_mod_cast Nat.le_of_succ_le_succ hk
    have hk0 : (0 : ℚ) ≤ (k : ℚ) := Nat.cast_nonneg k
    rw [Function.iterate_succ_apply', ih (Nat.le_of_succ_le hk),
      gateStep_free game _ (by linarith) (by linarith) (by
        rcases Nat.lt_or_ge k 71 with h | h
        · left
          have : (k : ℚ) ≤ 70 := by exact_mod_cast Nat.lt_succ_iff.1 h
          linarith
        · right
          have : (71 : ℚ) ≤ (k : ℚ) := by exact_mod_cast h
          linarith)]
    push_cast
    congr 1
    ring

theorem setUpFieldAngle_zero (lib : MathLib ℚ) (r : Nat) (h : r % 360 = 0) :
    setUpFieldAngle lib r = 0 := by
  have h0 : ((r : Int) % 360 : Int) = 0 := by omega
  have h1 : ¬((lib.Pi / 2 - 0) ^ 2 < (lib.Pi / 6) ^ 2) := by
    nlinarith [sq_nonneg lib.Pi]
  have h2 : ¬((3 * lib.Pi / 2 - 0) ^ 2 < (lib.Pi / 6) ^ 2) := by
    nlinarith [sq_nonneg lib.Pi]
  unfold setUpFieldAngle
  simp only [h0, Int.cast_zero, mul_zero, zero_div, if_neg h1, if_neg h2]

/-- C4, the code at the failing input. With a cosine of 0 equal to 1 and a sine
of 0 equal to 0, the first molecule of a level is created at `x = 29` with the
angle 0 (velocity `(4, 0)`) when the draws are those of `tunnelDraws`. In every
game whose gate stays closed, after 71 ticks of `move` and `reboundIfCollide`
it is exactly on the left face (313), where no test blocks it; it is at 317
after 72 ticks, right of the centre line (321) after 73 and right of the
partition (329) after 75, its `vx` never negated. Every value is a whole
number, so `float64` computes the same. -/
theorem closed_gate_lets_through (lib : MathLib ℚ) (hcos : lib.Cos 0 = 1)
    (hsin : lib.Sin 0 = 0) :
    sampleGame.level = 1 ∧
      (Game.setUpField lib tunnelDraws sampleGame).molecules.head? = some tunnelMolecule ∧
      tunnelMolecule.x < 313 ∧
      ∀ game : Game, game.isPartitionSlitOpen = false →
        ((gateStep game)^[71] tunnelMolecule).x = 313 ∧
        ((gateStep game)^[72] tunnelMolecule).x = 317 ∧
        ((gateStep game)^[73] tunnelMolecule).x = 321 ∧
        ((gateStep game)^[75] tunnelMolecule).x = 329 ∧
        ((gateStep game)^[75] tunnelMolecule).vx = 4 := by
  have h5 : (5 : Int).toNat = 5 := rfl
  have ha : setUpFieldAngle lib 0 = 0 := setUpFieldAngle_zero lib 0 rfl
  refine ⟨rfl, ?_, by norm_num [tunnelMolecule], ?_⟩
  · rw [setUpField_molecules]
    norm_num [sampleGame, wrapInt, h5, List.range_succ, setUpFieldStep, SetUpLoop.init,
      setUpFieldX, setUpFieldY, ha, hcos, hsin, tunnelDraws, tunnelMolecule]
  · intro game _
    have h := gateStep_iterate game
    refine ⟨?_, ?_, ?_, ?_, ?_⟩
    · rw [h 71 (by decide)]
      norm_num
    · rw [h 72 (by decide)]
      norm_num
    · rw [h 73 (by decide)]
      norm_num
    · rw [h 75 (by decide)]
      norm_num
    · rw [h 75 (by decide)]

theorem closed_gate_lets_through_witness :
    sampleLib.Cos 0 = 1 ∧ sampleLib.Sin 0 = 0 ∧ sampleGame.isPartitionSlitOpen = false ∧
      (Game.setUpField sampleLib tunnelDraws sampleGame).molecules.head? = some tunnelMolecule ∧
      ((gateStep sampleGame)^[73] tunnelMolecule).x = 321 :=
  ⟨rfl, rfl, rfl, (closed_gate_lets_through sampleLib rfl rfl).2.1,
    ((closed_gate_lets_through sampleLib rfl rfl).2.2.2 sampleGame rfl).2.2.1⟩

/-- C5, as stated, fails at both edges of the slit and at both faces: with
the slit open and the molecule crossing a face at `y = partitionSlitTop` or at
`y = partitionSlitBottom`, the endpoints of the closed interval,
`reboundIfCollide` blocks it (`x` is reset to the face and `vx` negated). -/
theorem open_gate_blocks_at_slit_edge :
    openGame.isPartitionSlitOpen = true ∧ openGame.partitionSlitTop = 188 ∧
      openGame.partitionSlitBottom = 238 ∧
      (slitEdgeMolecule.x < 313 ∧ 313 < slitEdgeMolecule.move.x ∧
        slitEdgeMolecule.move.y = 188 ∧ slitEdgeMolecule.move.x = 315 ∧
        slitEdgeMolecule.move.vx = 4 ∧
        (slitEdgeMolecule.move.reboundIfCollide openGame).x = 313 ∧
        (slitEdgeMolecule.move.reboundIfCollide openGame).vx = -4) ∧
      (slitBottomMolecule.x < 313 ∧ 313 < slitBottomMolecule.move.x ∧
        slitBottomMolecule.move.y = 238 ∧ slitBottomMolecule.move.x = 315 ∧
        slitBottomMolecule.move.vx = 4 ∧
        (slitBottomMolecule.move.reboundIfCollide openGame).x = 313 ∧
        (slitBottomMolecule.move.reboundIfCollide openGame).vx = -4) ∧
      (327 < slitEdgeMoleculeRight.x ∧ slitEdgeMoleculeRight.move.x < 327 ∧
        slitEdgeMoleculeRight.move.y = 188 ∧ slitEdgeMoleculeRight.move.x = 325 ∧
        slitEdgeMoleculeRight.move.vx = -4 ∧
        (slitEdgeMoleculeRight.move.reboundIfCollide openGame).x = 327 ∧
        (slitEdgeMoleculeRight.move.reboundIfCollide openGame).vx = 4) ∧
      (327 < slitBottomMoleculeRight.x ∧ slitBottomMoleculeRight.move.x < 327 ∧
        slitBottomMoleculeRight.move.y = 238 ∧ slitBottomMoleculeRight.move.x = 325 ∧
        slitBottomMoleculeRight.move.vx = -4 ∧
        (slitBottomMoleculeRight.move.reboundIfCollide openGame).x = 327 ∧
        (slitBottomMoleculeRight.move.reboundIfCollide openGame).vx = 4) := by
  refine ⟨rfl, rfl, rfl, ?_, ?_, ?_, ?_⟩ <;>
    norm_num [slitEdgeMolecule, slitBottomMolecule, slitEdgeMoleculeRight,
      slitBottomMoleculeRight, openGame, sampleGame, Molecule.move, Molecule.reboundIfCollide,
      Molecule.reboundFrameLeft, Molecule.reboundFrameRight, Molecule.reboundFrameTop,
      Molecule.reboundFrameBottom, Molecule.reboundPartitionLeft, Molecule.reboundPartitionRight]

theorem reboundIfCollide_id_of_admitted (m : Molecule) (game : Game)
    (ho : game.isPartitionSlitOpen = true) (hf : m.inFrame)
    (h1 : game.partitionSlitTop < m.y) (h2 : m.y < game.partitionSlitBottom) :
    m.reboundIfCollide game = m := by
  obtain ⟨hx1, hx2, hy1, hy2⟩ := hf
  norm_num at hx1 hx2 hy1 hy2
  unfold Molecule.reboundIfCollide
  rw [reboundFrameLeft_id m hx1, reboundFrameRight_id m hx2, reboundFrameTop_id m hy1,
    reboundFrameBottom_id m hy2, reboundPartitionLeft_admitted m game ho h1 h2,
    reboundPartitionRight_admitted m game ho h1 h2]

/-- C5, amended. An open gate admits a molecule strictly inside the slit: if
`isPartitionSlitOpen` is true and the molecule, as `move` left it, is inside
the frame with `partitionSlitTop < y < partitionSlitBottom` (both endpoints
excluded), then `reboundIfCollide` leaves it as it is, whether or not it
crosses a face of the partition in this tick; in particular its `x` and `vx`
after `reboundIfCollide` equal those after `move`. -/
theorem open_gate_admits (m : Molecule) (game : Game)
    (ho : game.isPartitionSlitOpen = true) (hf : m.inFrame)
    (h1 : game.partitionSlitTop < m.y) (h2 : m.y < game.partitionSlitBottom) :
    m.reboundIfCollide game = m ∧ (m.reboundIfCollide game).x = m.x ∧
      (m.reboundIfCollide game).vx = m.vx := by
  rw [reboundIfCollide_id_of_admitted m game ho hf h1 h2]
  exact ⟨rfl, rfl, rfl⟩

theorem open_gate_admits_witness :
    (sampleMolecule.x < 313 ∧ 313 < sampleMolecule.move.x) ∧
      sampleMolecule.move.reboundIfCollide openGame = sampleMolecule.move ∧
      (sampleMolecule.move.reboundIfCollide openGame).x = sampleMolecule.move.x ∧
      (sampleMolecule.move.reboundIfCollide openGame).vx = sampleMolecule.move.vx :=
  ⟨by norm_num [sampleMolecule, Molecule.move],
    open_gate_admits sampleMolecule.move openGame rfl
      (by norm_num [Molecule.inFrame, sampleMolecule, Molecule.move])
      (by norm_num [sampleMolecule, Molecule.move, openGame, sampleGame])
      (by norm_num [sampleMolecule, Molecule.move, openGame, sampleGame])⟩

/-! ## Level set-up -/

/-- The counters of the molecule loop count the molecules created so far. -/
theorem setUpFieldLoop_countP (lib : MathLib ℚ) (rand : Nat → Nat) (n : Nat) :
    ((List.range n).foldl (setUpFieldStep lib rand) SetUpLoop.init).highSpeedMoleculeCount =
        ((((List.range n).foldl (setUpFieldStep lib rand) SetUpLoop.init).molecules.countP
          (fun m => decide (m.speedType = MoleculeSpeedHigh)) : Nat) : Int) ∧
      ((List.range n).foldl (setUpFieldStep lib rand) SetUpLoop.init).lowSpeedMoleculeCount =
        ((((List.range n).foldl (setUpFieldStep lib rand) SetUpLoop.init).molecules.countP
          (fun m => decide (m.speedType = MoleculeSpeedLow)) : Nat) : Int) := by
  induction n with
  | zero => simp [SetUpLoop.init]
  | succ n ih =>
    obtain ⟨ihh, ihl⟩ := ih
    rw [List.range_succ, List.foldl_append, List.foldl_cons, List.foldl_nil]
    obtain ⟨m, hm, -, hmty, hh, hl⟩ := setUpFieldStep_spec lib rand
      ((List.range n).foldl (setUpFieldStep lib rand) SetUpLoop.init) n
    rw [hm, hh, hl, ihh, ihl, List.countP_append, List.countP_append]
    by_cases hn : n % 2 = 0
    · rw [if_pos hn] at hmty
      simp [hn, hmty]
    · rw [if_neg hn] at hmty
      simp [hn, hmty]

theorem setUpField_counts (lib : MathLib ℚ) (rand : Nat → Nat) (g : Game) :
    (g.setUpField lib rand).highSpeedMoleculeCount =
        ((List.range (wrapInt (g.level * 5)).toNat).foldl (setUpFieldStep lib rand)
          SetUpLoop.init).highSpeedMoleculeCount ∧
      (g.setUpField lib rand).lowSpeedMoleculeCount =
        ((List.range (wrapInt (g.level * 5)).toNat).foldl (setUpFieldStep lib rand)
          SetUpLoop.init).lowSpeedMoleculeCount :=
  ⟨rfl, rfl⟩

theorem wrapInt_of_range (n : Int) (hlo : -2 ^ 63 ≤ n) (hhi : n < 2 ^ 63) : wrapInt n = n := by
  unfold wrapInt
  omega

/-- C6, as stated, fails once `level * 5` leaves the range of `int`: at level
3689348814741910324 the product is `2^64 + 4`, which `int` holds as 4, and
`setUpField` creates 4 molecules, not `5n`. -/
theorem setUpField_wraps_at_huge_level :
    1 ≤ hugeLevelGame.level ∧ 5 * hugeLevelGame.level = 2 ^ 64 + 4 ∧
      (hugeLevelGame.setUpField sampleLib idleInput.rand).molecules.length = 4 ∧
      ((hugeLevelGame.setUpField sampleLib idleInput.rand).molecules.length : Int) ≠
        5 * hugeLevelGame.level := by
  have hw : wrapInt (hugeLevelGame.level * 5) = 4 := by decide
  have hlen : (hugeLevelGame.setUpField sampleLib idleInput.rand).molecules.length = 4 := by
    rw [setUpField_molecules, hw]
    exact (setUpFieldLoop_range sampleLib idleInput.rand 4).1
  refine ⟨by decide, by decide, hlen, ?_⟩
  rw [hlen]
  decide

/-- C6, amended. For every level `n >= 1` with `5n <= 2^63 - 1` (so that
`level * 5` is in the range of `int`) and all random draws, `setUpField`
creates exactly `5n` molecules; `highSpeedMoleculeCount` and
`lowSpeedMoleculeCount` are the numbers of fast and slow molecules created;
their sum is `5n` and their difference is 0 or 1; the molecule at creation
index `i` is fast if and only if `i` is even. -/
theorem setUpField_creates_5n (lib : MathLib ℚ) (rand : Nat → Nat) (g : Game)
    (h : 1 ≤ g.level) (hmax : 5 * g.level ≤ 2 ^ 63 - 1) :
    ((g.setUpField lib rand).molecules.length : Int) = 5 * g.level ∧
      (g.setUpField lib rand).highSpeedMoleculeCount =
        (((g.setUpField lib rand).molecules.countP
          (fun m => decide (m.speedType = MoleculeSpeedHigh)) : Nat) : Int) ∧
      (g.setUpField lib rand).lowSpeedMoleculeCount =
        (((g.setUpField lib rand).molecules.countP
          (fun m => decide (m.speedType = MoleculeSpeedLow)) : Nat) : Int) ∧
      (g.setUpField lib rand).highSpeedMoleculeCount +
        (g.setUpField lib rand).lowSpeedMoleculeCount = 5 * g.level ∧
      ((g.setUpField lib rand).highSpeedMoleculeCount -
          (g.setUpField lib rand).lowSpeedMoleculeCount = 0 ∨
        (g.setUpField lib rand).highSpeedMoleculeCount -
          (g.setUpField lib rand).lowSpeedMoleculeCount = 1) ∧
      ∀ (i : Nat) (m : Molecule), (g.setUpField lib rand).molecules[i]? = some m →
        (m.speedType = MoleculeSpeedHigh ↔ i % 2 = 0) := by
  have hwrap : wrapInt (g.level * 5) = g.level * 5 :=
    wrapInt_of_range _ (by omega) (by omega)
  obtain ⟨hlen, hhigh, hlow, -, hidx⟩ :=
    setUpFieldLoop_range lib rand (wrapInt (g.level * 5)).toNat
  obtain ⟨hch, hcl⟩ := setUpFieldLoop_countP lib rand (wrapInt (g.level * 5)).toNat
  obtain ⟨heh, hel⟩ := setUpField_counts lib rand g
  have hn : (((wrapInt (g.level * 5)).toNat : Nat) : Int) = 5 * g.level := by
    rw [hwrap, Int.toNat_of_nonneg (by omega)]
    ring
  rw [setUpField_molecules, heh, hel]
  refine ⟨by rw [hlen, hn], hch, hcl, ?_, ?_, ?_⟩
  · rw [hhigh, hlow]
    omega
  · rw [hhigh, hlow]
    omega
  · intro i m hi
    rw [hidx i m hi]
    by_cases hp : i % 2 = 0 <;> simp [hp]

theorem setUpField_creates_5n_witness :
    1 ≤ sampleGame.level ∧ 5 * sampleGame.level ≤ 2 ^ 63 - 1 ∧
      ((sampleGame.setUpField sampleLib idleInput.rand).molecules.length : Int) =
        5 * sampleGame.level :=
  ⟨by decide, by decide,
    (setUpField_creates_5n sampleLib idleInput.rand sampleGame (by decide) (by decide)).1⟩

/-! ## Win detection -/

theorem countInCorrectArea_eq (l : List Molecule) (a b : Int) :
    countInCorrectArea l (a, b) =
      (a + ((l.countP (fun m => decide (m.speedType = MoleculeSpeedLow ∧ m.x < 320)) : Nat) : Int),
        b + ((l.countP (fun m => decide (m.speedType = MoleculeSpeedHigh ∧ 320 < m.x)) : Nat) :
          Int)) := by
  induction l generalizing a b with
  | nil => simp [countInCorrectArea]
  | cons m ms ih =>
    unfold countInCorrectArea
    simp only [ih, List.countP_cons]
    norm_num
    constructor
    · split_ifs <;> ring
    · split_ifs <;> ring

theorem countP_and_eq_iff {α : Type} (p q : α → Bool) (l : List α) :
    l.countP (fun a => p a && q a) = l.countP p ↔ ∀ a ∈ l, p a = true → q a = true := by
  induction l with
  | nil => simp
  | cons a as ih =>
    have hle : as.countP (fun a => p a && q a) ≤ as.countP p :=
      List.countP_mono_left fun x _ hx => by
        simp only [Bool.and_eq_true] at hx
        exact hx.1
    simp only [List.countP_cons, List.mem_cons, forall_eq_or_imp]
    cases hp : p a <;> cases hq : q a <;> simp [ih]
    omega

theorem reboundIfCollide_speedType (m : Molecule) (game : Game) :
    (m.move.reboundIfCollide game).speedType = m.speedType :=
  (reboundIfCollide_velocity m.move game).2.2

theorem countP_speedType_map (t : MoleculeSpeedType) (game : Game) (l : List Molecule) :
    (l.map (fun m : Molecule => m.move.reboundIfCollide game)).countP
        (fun m => decide (m.speedType = t)) =
      l.countP (fun m => decide (m.speedType = t)) := by
  rw [List.countP_map]
  apply List.countP_congr
  intro m _
  simp [reboundIfCollide_speedType]

theorem updatePlayingMove_frame (inp : Input) (g : Game) :
    (g.updatePlayingMove inp).mode = g.mode ∧
      (g.updatePlayingMove inp).highSpeedMoleculeCount = g.highSpeedMoleculeCount ∧
      (g.updatePlayingMove inp).lowSpeedMoleculeCount = g.lowSpeedMoleculeCount ∧
      (g.updatePlayingMove inp).level = g.level := by
  unfold Game.updatePlayingMove
  obtain ⟨-, -, h3, h4, h5, h6⟩ := movePartitionSlit_frame
    { ({ g with playingSec := inp.now - g.playStartTime } : Game).handleTouch inp with
      molecules := (({ g with playingSec := inp.now - g.playStartTime } : Game).handleTouch
        inp).molecules.map Molecule.move }
  obtain ⟨-, k2, k3, k4, k5, -⟩ :=
    handleTouch_frame inp { g with playingSec := inp.now - g.playStartTime }
  simp only at h3 h4 h5 h6
  rw [h3, h4, h5, h6, k2, k3, k4, k5]
  exact ⟨rfl, rfl, rfl, rfl⟩

/-- The `GameModePlaying` case in terms of the state before the collision loop. -/
theorem updatePlaying_spec (inp : Input) (g : Game) :
    (g.updatePlaying inp).highSpeedMoleculeCountInRightSide =
        (((g.updatePlaying inp).molecules.countP
          (fun m => decide (m.speedType = MoleculeSpeedHigh ∧ 320 < m.x)) : Nat) : Int) ∧
      (g.updatePlaying inp).lowSpeedMoleculeCountInLeftSide =
        (((g.updatePlaying inp).molecules.countP
          (fun m => decide (m.speedType = MoleculeSpeedLow ∧ m.x < 320)) : Nat) : Int) ∧
      (g.updatePlaying inp).highSpeedMoleculeCount = g.highSpeedMoleculeCount ∧
      (g.updatePlaying inp).lowSpeedMoleculeCount = g.lowSpeedMoleculeCount ∧
      (g.updatePlaying inp).mode =
        (if (g.updatePlaying inp).isPartitionSlitOpen = false ∧
            (g.updatePlaying inp).highSpeedMoleculeCountInRightSide =
              (g.updatePlaying inp).highSpeedMoleculeCount ∧
            (g.updatePlaying inp).lowSpeedMoleculeCountInLeftSide =
              (g.updatePlaying inp).lowSpeedMoleculeCount then GameModeComplete
          else g.mode) := by
  obtain ⟨hm, hh, hl, -⟩ := updatePlayingMove_frame inp g
  unfold Game.updatePlaying
  simp only [Game.updateMoleculeCountInCorrectArea, countInCorrectArea_eq]
  split_ifs with h1 h2 h2
  · simp [hh, hl]
  · exact absurd (by simpa using h1) h2
  · exact absurd (by simpa using h2) h1
  · simp [hh, hl, hm]

theorem countP_correct_eq_iff (t : MoleculeSpeedType) (q : Molecule → Bool)
    (l : List Molecule) :
    ((l.countP (fun m => decide (m.speedType = t) && q m) : Nat) : Int) =
        ((l.countP (fun m => decide (m.speedType = t)) : Nat) : Int) ↔
      ∀ m ∈ l, m.speedType = t → q m = true := by
  rw [Nat.cast_inj, countP_and_eq_iff (fun m => decide (m.speedType = t)) q l]
  simp

/-- C7. Win detection. In `GameModePlaying`, with the targets
`highSpeedMoleculeCount` and `lowSpeedMoleculeCount` equal to the numbers of
fast and slow molecules, `Update` ends in `GameModeComplete` if and only if at
the end of the tick the gate is closed, every fast molecule has `x >
screenWidth/2 = 320` and every slow molecule has `x < 320`; equivalently the
gate is closed and the two counts, recomputed from the positions after the
collision loop, equal the targets; otherwise the mode stays
`GameModePlaying`. -/
theorem win_detection (lib : MathLib ℚ) (inp : Input) (g : Game)
    (hmode : g.mode = GameModePlaying)
    (hhigh : g.highSpeedMoleculeCount =
      ((g.molecules.countP (fun m => decide (m.speedType = MoleculeSpeedHigh)) : Nat) : Int))
    (hlow : g.lowSpeedMoleculeCount =
      ((g.molecules.countP (fun m => decide (m.speedType = MoleculeSpeedLow)) : Nat) : Int)) :
    ((g.Update lib inp).mode = GameModeComplete ↔
        (g.Update lib inp).isPartitionSlitOpen = false ∧
          ∀ m ∈ (g.Update lib inp).molecules,
            (m.speedType = MoleculeSpeedHigh → ((screenWidth / 2 : Int) : ℚ) < m.x) ∧
              (m.speedType = MoleculeSpeedLow → m.x < ((screenWidth / 2 : Int) : ℚ))) ∧
      ((g.Update lib inp).mode = GameModeComplete ↔
        (g.Update lib inp).isPartitionSlitOpen = false ∧
          (g.Update lib inp).highSpeedMoleculeCountInRightSide =
            (g.Update lib inp).highSpeedMoleculeCount ∧
          (g.Update lib inp).lowSpeedMoleculeCountInLeftSide =
            (g.Update lib inp).lowSpeedMoleculeCount) ∧
      ((g.Update lib inp).mode ≠ GameModeComplete → (g.Update lib inp).mode = GameModePlaying) ∧
      (g.Update lib inp).highSpeedMoleculeCountInRightSide =
        (((g.Update lib inp).molecules.countP
          (fun m => decide (m.speedType = MoleculeSpeedHigh ∧ 320 < m.x)) : Nat) : Int) ∧
      (g.Update lib inp).lowSpeedMoleculeCountInLeftSide =
        (((g.Update lib inp).molecules.countP
          (fun m => decide (m.speedType = MoleculeSpeedLow ∧ m.x < 320)) : Nat) : Int) := by
  have hU : g.Update lib inp =
      Game.updatePlaying inp { g with ticksFromModeStart := (g.ticksFromModeStart + 1) % 2 ^ 64 } := by
    unfold Game.Update
    simp only [hmode]
  obtain ⟨hcH, hcL, htH, htL, hmd⟩ := updatePlaying_spec inp
    { g with ticksFromModeStart := (g.ticksFromModeStart + 1) % 2 ^ 64 }
  have hmols := updatePlaying_molecules inp
    { g with ticksFromModeStart := (g.ticksFromModeStart + 1) % 2 ^ 64 }
  rw [← hU] at hcH hcL htH htL hmd hmols
  simp only at htH htL hmd hmols
  rw [hmode] at hmd
  have hcount : (g.Update lib inp).mode = GameModeComplete ↔
      (g.Update lib inp).isPartitionSlitOpen = false ∧
        (g.Update lib inp).highSpeedMoleculeCountInRightSide =
          (g.Update lib inp).highSpeedMoleculeCount ∧
        (g.Update lib inp).lowSpeedMoleculeCountInLeftSide =
          (g.Update lib inp).lowSpeedMoleculeCount := by
    constructor
    · intro hC
      by_contra hn
      rw [if_neg hn] at hmd
      rw [hmd] at hC
      exact GameMode.noConfusion hC
    · intro hc
      rw [if_pos hc] at hmd
      exact hmd
  have hH : (g.Update lib inp).highSpeedMoleculeCount =
      (((g.Update lib inp).molecules.countP
        (fun m => decide (m.speedType = MoleculeSpeedHigh)) : Nat) : Int) := by
    rw [htH, hhigh, hmols, countP_speedType_map]
  have hL : (g.Update lib inp).lowSpeedMoleculeCount =
      (((g.Update lib inp).molecules.countP
        (fun m => decide (m.speedType = MoleculeSpeedLow)) : Nat) : Int) := by
    rw [htL, hlow, hmols, countP_speedType_map]
  have hallH : (g.Update lib inp).highSpeedMoleculeCountInRightSide =
        (g.Update lib inp).highSpeedMoleculeCount ↔
      ∀ m ∈ (g.Update lib inp).molecules, m.speedType = MoleculeSpeedHigh → 320 < m.x := by
    rw [hcH, hH]
    have := countP_correct_eq_iff MoleculeSpeedHigh (fun m => decide (320 < m.x))
      (g.Update lib inp).molecules
    simpa [Bool.decide_and] using this
  have hallL : (g.Update lib inp).lowSpeedMoleculeCountInLeftSide =
        (g.Update lib inp).lowSpeedMoleculeCount ↔
      ∀ m ∈ (g.Update lib inp).molecules, m.speedType = MoleculeSpeedLow → m.x < 320 := by
    rw [hcL, hL]
    have := countP_correct_eq_iff MoleculeSpeedLow (fun m => decide (m.x < 320))
      (g.Update lib inp).molecules
    simpa [Bool.decide_and] using this
  refine ⟨?_, hcount, ?_, hcH, hcL⟩
  · rw [hcount, hallH, hallL]
    norm_num
    intro _
    constructor
    · rintro ⟨h1, h2⟩ m hm
      exact ⟨h1 m hm, h2 m hm⟩
    · intro h
      exact ⟨fun m hm => (h m hm).1, fun m hm => (h m hm).2⟩
  · intro hne
    by_cases hc : (g.Update lib inp).isPartitionSlitOpen = false ∧
        (g.Update lib inp).highSpeedMoleculeCountInRightSide =
          (g.Update lib inp).highSpeedMoleculeCount ∧
        (g.Update lib inp).lowSpeedMoleculeCountInLeftSide =
          (g.Update lib inp).lowSpeedMoleculeCount
    · exact absurd (hcount.2 hc) hne
    · rw [if_neg hc] at hmd
      exact hmd

theorem win_detection_witness :
    sampleGame.mode = GameModePlaying ∧
      ((sampleGame.Update sampleLib idleInput).mode = GameModeComplete ↔
        (sampleGame.Update sampleLib idleInput).isPartitionSlitOpen = false ∧
          ∀ m ∈ (sampleGame.Update sampleLib idleInput).molecules,
            (m.speedType = MoleculeSpeedHigh → ((screenWidth / 2 : Int) : ℚ) < m.x) ∧
              (m.speedType = MoleculeSpeedLow → m.x < ((screenWidth / 2 : Int) : ℚ))) :=
  ⟨rfl, (win_detection sampleLib idleInput sampleGame rfl (by decide) (by decide)).1⟩

/-! ## The backing surfaces of `dotutil` -/

theorem NewImage_of_range (maxImageSize w h : Int) (hw1 : 1 ≤ w) (hw2 : w ≤ maxImageSize)
    (hh1 : 1 ≤ h) (hh2 : h ≤ maxImageSize) :
    NewImage maxImageSize w h = some { width := w, height := h } := by
  unfold NewImage
  rw [if_pos ⟨hw1, hw2, hh1, hh2⟩]

theorem init_of_range (maxImageSize : Int) (h : 100 ≤ maxImageSize) :
    init maxImageSize = some initCanvas := by
  unfold init initCanvas
  exact NewImage_of_range _ _ _ (by omega) h (by omega) h

/-- The allocation statement on a request that `NewImage` can serve doubled. -/
theorem resizeCanvas_spec (maxImageSize : Int) (canvas : CanvasSize) (w h : Int)
    (hmax : maxImageSize < 2 ^ 63) (hw1 : 1 ≤ w) (hw2 : w * 2 ≤ maxImageSize)
    (hh1 : 1 ≤ h) (hh2 : h * 2 ≤ maxImageSize) :
    ∃ after : CanvasSize, resizeCanvas maxImageSize canvas w h = some after ∧
      after = growCanvas canvas w h ∧ w ≤ after.width ∧ h ≤ after.height ∧
      (w ≤ canvas.width ∧ h ≤ canvas.height → after = canvas) ∧
      (canvas.width < w ∨ canvas.height < h → after = { width := w * 2, height := h * 2 }) := by
  have e1 : wrapInt (w * 2) = w * 2 := wrapInt_of_range _ (by omega) (by omega)
  have e2 : wrapInt (h * 2) = h * 2 := wrapInt_of_range _ (by omega) (by omega)
  unfold resizeCanvas growCanvas
  by_cases hc : canvas.width < w ∨ canvas.height < h
  · rw [if_pos hc, if_pos hc, e1, e2,
      NewImage_of_range _ _ _ (by omega) hw2 (by omega) hh2]
    refine ⟨_, rfl, rfl, ?_, ?_, ?_, fun _ => rfl⟩
    · show w ≤ w * 2
      omega
    · show h ≤ h * 2
      omega
    · rintro ⟨h1, h2⟩
      rcases hc with hc | hc <;> omega
  · rw [if_neg hc, if_neg hc]
    have hc2 := hc
    rw [not_or, not_lt, not_lt] at hc2
    exact ⟨_, rfl, rfl, hc2.1, hc2.2, fun _ => rfl, fun h => absurd h hc⟩

theorem canvasAfterRequests_append (maxImageSize : Int) (requests : List (Int × Int))
    (request : Int × Int) :
    canvasAfterRequests maxImageSize (requests ++ [request]) =
      (canvasAfterRequests maxImageSize requests).bind fun c =>
        resizeCanvas maxImageSize c request.1 request.2 := by
  simp [canvasAfterRequests, List.foldl_append]

/-- Every sequence of requests that `NewImage` can serve doubled leaves a
cached surface. -/
theorem canvasAfterRequests_some (maxImageSize : Int) (hmax : maxImageSize < 2 ^ 63)
    (hinit : 100 ≤ maxImageSize) (requests : List (Int × Int))
    (hall : ∀ r ∈ requests,
      1 ≤ r.1 ∧ r.1 * 2 ≤ maxImageSize ∧ 1 ≤ r.2 ∧ r.2 * 2 ≤ maxImageSize) :
    ∃ canvas : CanvasSize, canvasAfterRequests maxImageSize requests = some canvas := by
  induction requests using List.reverseRecOn with
  | nil => exact ⟨initCanvas, init_of_range _ hinit⟩
  | append_singleton requests request ih =>
    obtain ⟨canvas, hcanvas⟩ := ih fun r hr => hall r (List.mem_append_left _ hr)
    obtain ⟨h1, h2, h3, h4⟩ := hall request (by simp)
    obtain ⟨after, hafter, -⟩ := resizeCanvas_spec maxImageSize canvas request.1 request.2
      hmax h1 h2 h3 h4
    exact ⟨after, by rw [canvasAfterRequests_append, hcanvas, Option.some_bind, hafter]⟩

section dotutil

variable {K : Type} [LinearOrderedField K] [FloorRing K]

/-- The surface after a sequence of `DrawLine` calls is the one after their
requests. -/
theorem drawLineCanvasAfter_eq (ops : FloatOps K) (lib : MathLib K) (maxImageSize : Int)
    (calls : List (DrawLineCall K)) :
    drawLineCanvasAfter ops lib maxImageSize calls =
      canvasAfterRequests maxImageSize (calls.map fun call => call.requested ops lib) := by
  unfold drawLineCanvasAfter canvasAfterRequests
  rw [List.foldl_map]
  rfl

theorem DrawPatternCall.canvasAfter_of_ne_nil (maxImageSize : Int) (canvas : CanvasSize)
    (call : DrawPatternCall K) (hne : call.pattern ≠ []) :
    call.canvasAfter maxImageSize canvas =
      resizeCanvas maxImageSize canvas call.requested.1 call.requested.2 := by
  unfold DrawPatternCall.canvasAfter
  cases hp : call.pattern with
  | nil => exact absurd hp hne
  | cons row0 rest => rfl

/-- The surface after a sequence of `DrawPattern` calls on non-empty patterns is
the one after their requests. -/
theorem drawPatternCanvasAfter_eq (maxImageSize : Int) (calls : List (DrawPatternCall K))
    (hne : ∀ call ∈ calls, call.pattern ≠ []) :
    drawPatternCanvasAfter maxImageSize calls =
      canvasAfterRequests maxImageSize (calls.map fun call => call.requested) := by
  unfold drawPatternCanvasAfter canvasAfterRequests
  rw [List.foldl_map]
  generalize init maxImageSize = start
  induction calls generalizing start with
  | nil => rfl
  | cons call rest ih =>
    rw [List.foldl_cons, List.foldl_cons,
      ih fun c hc => hne c (List.mem_cons_of_mem _ hc)]
    congr 1
    cases start with
    | none => rfl
    | some c =>
      exact DrawPatternCall.canvasAfter_of_ne_nil maxImageSize c call
        (hne call (List.mem_cons_self _ _))

end dotutil

theorem real_sqrt_of_sq (a b : ℝ) (hb : 0 ≤ b) (h : a = b ^ 2) : Real.sqrt a = b := by
  rw [h, Real.sqrt_sq hb]

theorem real_sqrt_100 : Real.sqrt 100 = 10 :=
  real_sqrt_of_sq 100 10 (by norm_num) (by norm_num)

theorem real_sqrt_2500 : Real.sqrt 2500 = 50 :=
  real_sqrt_of_sq 2500 50 (by norm_num) (by norm_num)

theorem real_sqrt_40000 : Real.sqrt 40000 = 200 :=
  real_sqrt_of_sq 40000 200 (by norm_num) (by norm_num)

theorem real_sqrt_10000 : Real.sqrt 10000 = 100 :=
  real_sqrt_of_sq 10000 100 (by norm_num) (by norm_num)

/-- C8, as stated, fails: on a device with surfaces up to 16384, after a line
of length 50 with dots of side 60 (which fits the initial 100x100 surface) a
line of length 200 with the default dot size 15 replaces the surface by one of
400x30, so the height decreases from 100 to 30 and is below the 60 requested
before; a line of length 10 with dots of side 50 then replaces it by one of
20x100, so the width decreases from 400 to 20 and is below the 200 requested
before. Likewise `DrawPattern` on one row of twenty cells and then on twenty
rows of one cell leaves surfaces of 600x30 and of 30x600. (All the values are
integers, which `float64` holds exactly.) -/
theorem canvas_dimensions_decrease :
    (shortThickLine ℝ).requested (exactOps ℝ) (MathLib.mk Real.pi Real.cos Real.sin Real.sqrt fun y x => Complex.arg (Complex.mk x y)) = (50, 60) ∧
      (longThinLine ℝ).requested (exactOps ℝ) (MathLib.mk Real.pi Real.cos Real.sin Real.sqrt fun y x => Complex.arg (Complex.mk x y)) = (200, 15) ∧
      (shortTallLine ℝ).requested (exactOps ℝ) (MathLib.mk Real.pi Real.cos Real.sin Real.sqrt fun y x => Complex.arg (Complex.mk x y)) = (10, 50) ∧
      drawLineCanvasAfter (exactOps ℝ) (MathLib.mk Real.pi Real.cos Real.sin Real.sqrt fun y x => Complex.arg (Complex.mk x y)) sampleMaxImageSize [shortThickLine ℝ] =
        some { width := 100, height := 100 } ∧
      drawLineCanvasAfter (exactOps ℝ) (MathLib.mk Real.pi Real.cos Real.sin Real.sqrt fun y x => Complex.arg (Complex.mk x y)) sampleMaxImageSize
          [shortThickLine ℝ, longThinLine ℝ] = some { width := 400, height := 30 } ∧
      drawLineCanvasAfter (exactOps ℝ) (MathLib.mk Real.pi Real.cos Real.sin Real.sqrt fun y x => Complex.arg (Complex.mk x y)) sampleMaxImageSize
          [shortThickLine ℝ, longThinLine ℝ, shortTallLine ℝ] =
        some { width := 20, height := 100 } ∧
      (widePattern ℝ).requested = (300, 15) ∧ (tallPattern ℝ).requested = (15, 300) ∧
      drawPatternCanvasAfter sampleMaxImageSize [widePattern ℝ] =
        some { width := 600, height := 30 } ∧
      drawPatternCanvasAfter sampleMaxImageSize [widePattern ℝ, tallPattern ℝ] =
        some { width := 30, height := 600 } := by
  have h1 : (shortThickLine ℝ).requested (exactOps ℝ) (MathLib.mk Real.pi Real.cos Real.sin Real.sqrt fun y x => Complex.arg (Complex.mk x y)) = (50, 60) := by
    norm_num [DrawLineCall.requested, DrawLineCall.lineLength, shortThickLine, exactOps,
      DrawLineOption.resolve, truncToInt, real_sqrt_2500]
  have h2 : (longThinLine ℝ).requested (exactOps ℝ) (MathLib.mk Real.pi Real.cos Real.sin Real.sqrt fun y x => Complex.arg (Complex.mk x y)) = (200, 15) := by
    norm_num [DrawLineCall.requested, DrawLineCall.lineLength, longThinLine, exactOps,
      DrawLineOption.resolve, truncToInt, real_sqrt_40000]
  have h3 : (shortTallLine ℝ).requested (exactOps ℝ) (MathLib.mk Real.pi Real.cos Real.sin Real.sqrt fun y x => Complex.arg (Complex.mk x y)) = (10, 50) := by
    norm_num [DrawLineCall.requested, DrawLineCall.lineLength, shortTallLine, exactOps,
      DrawLineOption.resolve, truncToInt, real_sqrt_100]
  have h4 : (widePattern ℝ).requested = (300, 15) := by
    norm_num [DrawPatternCall.requested, widePattern, DrawPatternOption.resolve,
      patternCanvasSize, truncToInt]
  have h5 : (tallPattern ℝ).requested = (15, 300) := by
    norm_num [DrawPatternCall.requested, tallPattern, DrawPatternOption.resolve,
      patternCanvasSize, truncToInt, List.replicate]
  refine ⟨h1, h2, h3, ?_, ?_, ?_, h4, h5, ?_, ?_⟩
  · rw [drawLineCanvasAfter_eq]
    simp only [List.map, h1]
    decide
  · rw [drawLineCanvasAfter_eq]
    simp only [List.map, h1, h2]
    decide
  · rw [drawLineCanvasAfter_eq]
    simp only [List.map, h1, h2, h3]
    decide
  · rw [drawPatternCanvasAfter_eq _ _ (by simp [widePattern])]
    simp only [List.map, h4]
    decide
  · rw [drawPatternCanvasAfter_eq _ _ (by simp [widePattern, tallPattern])]
    simp only [List.map, h4, h5]
    decide

/-- C8, amended. Let `M` be the largest surface size of the device, with
`100 <= M < 2^63`, and call a request of width `w` and height `h` admissible
when `1 <= w`, `1 <= h`, `2*w <= M` and `2*h <= M`. After `init` and every
sequence of admissible requests followed by one more admissible request no
`NewImage` panics, and the cached surface is at least as wide and as high as
this last request; it is the surface of before when the request fits in it and
one of exactly twice the requested width and height when it does not. The
requests of a sequence of `DrawLine` calls are their `int(lineLength)` by
`int(DotSize)`, with `DotSize` as in effect after the default, and those of a
sequence of `DrawPattern` calls on non-empty patterns are their `canvasWidth`
by `canvasHeight`. Neither dimension is monotone or covers the earlier
requests: with `M = 16384` the requests 50x60, 200x15 and 10x50 leave surfaces
of 100x100, 400x30 and 20x100. -/
theorem canvas_holds_last_request {K : Type} [LinearOrderedField K] [FloorRing K]
    (ops : FloatOps K) (lib : MathLib K) (maxImageSize : Int)
    (requests : List (Int × Int)) (request : Int × Int)
    (hmax : maxImageSize < 2 ^ 63) (hinit : 100 ≤ maxImageSize)
    (hall : ∀ r ∈ requests ++ [request],
      1 ≤ r.1 ∧ r.1 * 2 ≤ maxImageSize ∧ 1 ≤ r.2 ∧ r.2 * 2 ≤ maxImageSize) :
    (∃ before after : CanvasSize,
        canvasAfterRequests maxImageSize requests = some before ∧
        canvasAfterRequests maxImageSize (requests ++ [request]) = some after ∧
        request.1 ≤ after.width ∧ request.2 ≤ after.height ∧
        (request.1 ≤ before.width ∧ request.2 ≤ before.height → after = before) ∧
        (before.width < request.1 ∨ before.height < request.2 →
          after = { width := request.1 * 2, height := request.2 * 2 })) ∧
      canvasAfterRequests sampleMaxImageSize [(50, 60), (200, 15)] =
        some { width := 400, height := 30 } ∧
      canvasAfterRequests sampleMaxImageSize [(50, 60), (200, 15), (10, 50)] =
        some { width := 20, height := 100 } ∧
      (∀ calls : List (DrawLineCall K),
        drawLineCanvasAfter ops lib maxImageSize calls =
          canvasAfterRequests maxImageSize (calls.map fun call => call.requested ops lib)) ∧
      ∀ calls : List (DrawPatternCall K), (∀ call ∈ calls, call.pattern ≠ []) →
        drawPatternCanvasAfter maxImageSize calls =
          canvasAfterRequests maxImageSize (calls.map fun call => call.requested) := by
  refine ⟨?_, by decide, by decide, drawLineCanvasAfter_eq ops lib maxImageSize,
    drawPatternCanvasAfter_eq maxImageSize⟩
  obtain ⟨before, hbefore⟩ := canvasAfterRequests_some maxImageSize hmax hinit requests
    fun r hr => hall r (List.mem_append_left _ hr)
  obtain ⟨h1, h2, h3, h4⟩ := hall request (by simp)
  obtain ⟨after, hafter, -, hw, hh, hfit, hgrow⟩ :=
    resizeCanvas_spec maxImageSize before request.1 request.2 hmax h1 h2 h3 h4
  exact ⟨before, after, hbefore,
    by rw [canvasAfterRequests_append, hbefore, Option.some_bind, hafter], hw, hh, hfit, hgrow⟩

theorem canvas_holds_last_request_witness :
    sampleMaxImageSize < 2 ^ 63 ∧ 100 ≤ sampleMaxImageSize ∧
      (∀ r ∈ [((50 : Int), (60 : Int))] ++ [((200 : Int), (15 : Int))],
        1 ≤ r.1 ∧ r.1 * 2 ≤ sampleMaxImageSize ∧ 1 ≤ r.2 ∧ r.2 * 2 ≤ sampleMaxImageSize) ∧
      ∃ before after : CanvasSize,
        canvasAfterRequests sampleMaxImageSize [(50, 60)] = some before ∧
        canvasAfterRequests sampleMaxImageSize ([(50, 60)] ++ [(200, 15)]) = some after ∧
        (200 : Int) ≤ after.width ∧ (15 : Int) ≤ after.height ∧
        ((200 : Int) ≤ before.width ∧ (15 : Int) ≤ before.height → after = before) ∧
        (before.width < (200 : Int) ∨ before.height < (15 : Int) →
          after = { width := 200 * 2, height := 15 * 2 }) :=
  ⟨by decide, by decide, by decide,
    (canvas_holds_last_request (exactOps ℚ) sampleLib sampleMaxImageSize [(50, 60)] (200, 15)
      (by decide) (by decide) (by decide)).1⟩

/-! ## The dots of `DrawLine` -/

/-- The dot loop, started at `x` with enough fuel, draws at `x` and at the
values that `x += stride` gives it, as long as they are at most `lineLength`. -/
theorem drawLineLoop_eq {K : Type} [LinearOrderedField K] (ops : FloatOps K)
    (lineLength stride : K) :
    ∀ (n fuel : Nat) (x : K),
      (∀ k : Nat, k < n → (fun y => ops.add y stride)^[k] x ≤ lineLength) →
      ¬((fun y => ops.add y stride)^[n] x ≤ lineLength) → n < fuel →
      drawLineLoop ops lineLength stride fuel x =
        some ((List.range n).map fun k : Nat => (fun y => ops.add y stride)^[k] x) := by
  intro n
  induction n with
  | zero =>
    intro fuel x _ hstop hfuel
    obtain ⟨f, rfl⟩ := Nat.exists_eq_succ_of_ne_zero (Nat.pos_iff_ne_zero.1 hfuel)
    have hx : ¬(x ≤ lineLength) := hstop
    simp [drawLineLoop, hx]
  | succ n ih =>
    intro fuel x hin hstop hfuel
    obtain ⟨f, rfl⟩ := Nat.exists_eq_succ_of_ne_zero
      (Nat.pos_iff_ne_zero.1 (Nat.lt_of_le_of_lt (Nat.zero_le _) hfuel))
    have hx : x ≤ lineLength := hin 0 (Nat.succ_pos n)
    have hrec := ih f (ops.add x stride)
      (fun k hk => by
        have := hin (k + 1) (Nat.succ_lt_succ hk)
        rwa [Function.iterate_succ_apply] at this)
      (fun h => hstop (by rwa [Function.iterate_succ_apply]))
      (Nat.lt_of_succ_lt_succ hfuel)
    unfold drawLineLoop
    rw [if_pos hx, hrec, List.range_succ_eq_map]
    simp only [Option.map_some', List.map_cons, List.map_map, Function.iterate_zero, id_eq]
    congr 2

/-- The dot loop does not end when every value of `x` is at most `lineLength`. -/
theorem drawLineLoop_none {K : Type} [LinearOrderedField K] (ops : FloatOps K)
    (lineLength stride : K) :
    ∀ (fuel : Nat) (x : K), (∀ k : Nat, (fun y => ops.add y stride)^[k] x ≤ lineLength) →
      drawLineLoop ops lineLength stride fuel x = none := by
  intro fuel
  induction fuel with
  | zero =>
    intro x _
    rfl
  | succ fuel ih =>
    intro x hin
    have hx : x ≤ lineLength := hin 0
    have hrec := ih (ops.add x stride) fun k => by
      have := hin (k + 1)
      rwa [Function.iterate_succ_apply] at this
    unfold drawLineLoop
    rw [if_pos hx, hrec]
    rfl

/-- Without rounding the value of `x` after `k` steps is `k * stride`. -/
theorem dotOffset_exact {K : Type} [LinearOrderedField K] (stride : K) (k : Nat) :
    dotOffset (exactOps K) stride k = (k : K) * stride := by
  unfold dotOffset
  induction k with
  | zero => simp
  | succ k ih =>
    rw [Function.iterate_succ_apply', ih]
    simp only [exactOps, Nat.cast_succ]
    ring

section dotutil

variable {K : Type} [LinearOrderedField K] [FloorRing K]

theorem DrawLine_dots (ops : FloatOps K) (lib : MathLib K) (maxImageSize : Int)
    (canvas after : CanvasSize) (call : DrawLineCall K) (n fuel : Nat)
    (halloc : call.canvasAfter ops lib maxImageSize canvas = some after)
    (hin : ∀ k : Nat, k < n → dotOffset ops (call.stride ops) k ≤ call.lineLength ops lib)
    (hout : ¬(dotOffset ops (call.stride ops) n ≤ call.lineLength ops lib))
    (hfuel : n < fuel) :
    ∃ drawing : LineDrawing K, DrawLine ops lib maxImageSize canvas call fuel = some drawing ∧
      drawing.drawLineCanvas = after ∧
      drawing.canvasWidth = (call.requested ops lib).1 ∧
      drawing.canvasHeight = (call.requested ops lib).2 ∧
      drawing.dotSize = (DrawLineOption.resolve call.option).DotSize ∧
      drawing.dots = (List.range n).map (dotOffset ops (call.stride ops)) := by
  have hloop := drawLineLoop_eq ops (call.lineLength ops lib) (call.stride ops) n fuel 0
    hin hout hfuel
  unfold DrawLine
  simp only [halloc, hloop]
  exact ⟨_, rfl, rfl, rfl, rfl, rfl, rfl⟩

theorem DrawLine_none_of_loop (ops : FloatOps K) (lib : MathLib K) (maxImageSize : Int)
    (canvas : CanvasSize) (call : DrawLineCall K) (fuel : Nat)
    (hin : ∀ k : Nat, dotOffset ops (call.stride ops) k ≤ call.lineLength ops lib) :
    DrawLine ops lib maxImageSize canvas call fuel = none := by
  have hloop := drawLineLoop_none ops (call.lineLength ops lib) (call.stride ops) fuel 0 hin
  unfold DrawLine
  simp only [hloop]
  cases call.canvasAfter ops lib maxImageSize canvas <;> rfl

/-- The number of dots: the offsets `k * stride` that are at most `lineLength`. -/
theorem dotCount_exists (lineLength stride : K) (hs : 0 < stride) :
    ∃ n : Nat, ∀ k : Nat, k < n ↔ (k : K) * stride ≤ lineLength := by
  by_cases hL : 0 ≤ lineLength
  · refine ⟨⌊lineLength / stride⌋₊ + 1, fun k => ?_⟩
    rw [Nat.lt_succ_iff, Nat.le_floor_iff (div_nonneg hL hs.le), le_div_iff₀ hs]
  · refine ⟨0, fun k => ?_⟩
    constructor
    · intro h
      exact absurd h (Nat.not_lt_zero k)
    · intro h
      exact absurd (le_trans (mul_nonneg (Nat.cast_nonneg k) hs.le) h) hL

end dotutil

theorem exampleLine_values :
    (exampleLine ℝ).lineLength (exactOps ℝ) (MathLib.mk Real.pi Real.cos Real.sin Real.sqrt fun y x => Complex.arg (Complex.mk x y)) = 100 ∧
      (exampleLine ℝ).stride (exactOps ℝ) = 12 ∧
      (exampleLine ℝ).requested (exactOps ℝ) (MathLib.mk Real.pi Real.cos Real.sin Real.sqrt fun y x => Complex.arg (Complex.mk x y)) = (100, 10) := by
  have h1 : (exampleLine ℝ).lineLength (exactOps ℝ) (MathLib.mk Real.pi Real.cos Real.sin Real.sqrt fun y x => Complex.arg (Complex.mk x y)) = 100 := by
    norm_num [DrawLineCall.lineLength, exampleLine, exactOps, real_sqrt_10000]
  refine ⟨h1, ?_, ?_⟩
  · norm_num [DrawLineCall.stride, DrawLineOption.resolve, exampleLine, exactOps]
  · unfold DrawLineCall.requested
    rw [h1]
    norm_num [DrawLineOption.resolve, exampleLine, truncToInt]

theorem exampleLine_count (k : Nat) :
    (k < 9 → dotOffset (exactOps ℝ) ((exampleLine ℝ).stride (exactOps ℝ)) k ≤
        (exampleLine ℝ).lineLength (exactOps ℝ) (MathLib.mk Real.pi Real.cos Real.sin Real.sqrt fun y x => Complex.arg (Complex.mk x y))) ∧
      (9 ≤ k → ¬(dotOffset (exactOps ℝ) ((exampleLine ℝ).stride (exactOps ℝ)) k ≤
        (exampleLine ℝ).lineLength (exactOps ℝ) (MathLib.mk Real.pi Real.cos Real.sin Real.sqrt fun y x => Complex.arg (Complex.mk x y)))) := by
  obtain ⟨h1, h2, -⟩ := exampleLine_values
  rw [h1, h2, dotOffset_exact]
  constructor
  · intro hk
    have : (k : ℝ) ≤ 8 := by exact_mod_cast Nat.lt_succ_iff.1 hk
    linarith
  · intro hk hle
    have : (9 : ℝ) ≤ (k : ℝ) := by exact_mod_cast hk
    linarith

theorem exampleLine_dots (maxImageSize : Int) (canvas after : CanvasSize) (fuel : Nat)
    (halloc : (exampleLine ℝ).canvasAfter (exactOps ℝ) (MathLib.mk Real.pi Real.cos Real.sin Real.sqrt fun y x => Complex.arg (Complex.mk x y)) maxImageSize canvas = some after)
    (hfuel : 9 < fuel) :
    ∃ drawing : LineDrawing ℝ,
      DrawLine (exactOps ℝ) (MathLib.mk Real.pi Real.cos Real.sin Real.sqrt fun y x => Complex.arg (Complex.mk x y)) maxImageSize canvas (exampleLine ℝ) fuel = some drawing ∧
      drawing.drawLineCanvas = after ∧ drawing.canvasWidth = 100 ∧ drawing.canvasHeight = 10 ∧
      drawing.dotSize = 10 ∧ drawing.dots = [0, 12, 24, 36, 48, 60, 72, 84, 96] := by
  obtain ⟨drawing, hd, hcanvas, hw, hh, hsize, hdots⟩ :=
    DrawLine_dots (exactOps ℝ) (MathLib.mk Real.pi Real.cos Real.sin Real.sqrt fun y x => Complex.arg (Complex.mk x y)) maxImageSize canvas after (exampleLine ℝ) 9 fuel halloc
      (fun k hk => (exampleLine_count k).1 hk) ((exampleLine_count 9).2 (le_refl 9)) hfuel
  obtain ⟨-, h2, h3⟩ := exampleLine_values
  refine ⟨drawing, hd, hcanvas, ?_, ?_, ?_, ?_⟩
  · rw [hw, h3]
  · rw [hh, h3]
  · rw [hsize]
    norm_num [DrawLineOption.resolve, exampleLine]
  · rw [hdots, h2]
    simp only [List.range_succ, List.range_zero, List.nil_append, List.cons_append, List.map,
      dotOffset_exact]
    norm_num

theorem exampleLine_alloc :
    (exampleLine ℝ).canvasAfter (exactOps ℝ) (MathLib.mk Real.pi Real.cos Real.sin Real.sqrt fun y x => Complex.arg (Complex.mk x y)) sampleMaxImageSize initCanvas =
      some initCanvas := by
  unfold DrawLineCall.canvasAfter
  rw [exampleLine_values.2.2]
  decide

/-- C9, as stated, fails: `DrawLine` from `(0,0)` to `(100,0)` with `DotSize`
10 and `Interval` 0 takes the zero `Interval` for an unset one and uses 2, so
on the initial surface it lays out nine dots, at 0, 12, ..., 96, not ten dots
at 0, 10, ..., 90, and leaves a gap of 2 between consecutive dots. (All the
values are integers, which `float64` holds exactly.) -/
theorem example_line_has_nine_dots :
    (DrawLineOption.resolve (exampleLine ℝ).option).Interval = 2 ∧
      (DrawLine (exactOps ℝ) (MathLib.mk Real.pi Real.cos Real.sin Real.sqrt fun y x => Complex.arg (Complex.mk x y)) sampleMaxImageSize initCanvas (exampleLine ℝ) 20).map
          (fun drawing => drawing.dots) = some [0, 12, 24, 36, 48, 60, 72, 84, 96] ∧
      (DrawLine (exactOps ℝ) (MathLib.mk Real.pi Real.cos Real.sin Real.sqrt fun y x => Complex.arg (Complex.mk x y)) sampleMaxImageSize initCanvas (exampleLine ℝ) 20).map
          (fun drawing => drawing.dots) ≠ some [0, 10, 20, 30, 40, 50, 60, 70, 80, 90] := by
  obtain ⟨drawing, hd, -, -, -, -, hdots⟩ :=
    exampleLine_dots sampleMaxImageSize initCanvas initCanvas 20 exampleLine_alloc (by decide)
  rw [hd, Option.map_some', hdots]
  refine ⟨by norm_num [DrawLineOption.resolve, exampleLine], rfl, ?_⟩
  intro h
  have hlen := congrArg (fun o : Option (List ℝ) => o.map List.length) h
  simp at hlen

/-- C9, amended. Let `DotSize` and `Interval` be those in effect after the
defaults (15 for a zero `DotSize`, 2 for a zero `Interval`), `stride` their
`float64` sum, `L` the segment length as computed, and `x_0 = 0`,
`x_(k+1) = x_k + stride` in `float64`. If the allocation statement of the call
leaves a surface and `x_k <= L` for `k < n` but not for `k = n`, `DrawLine`
returns, on a sub-image of `int(L)` by `int(DotSize)`, having laid its dots of
side `DotSize` at exactly the offsets `x_0, ..., x_(n-1)`. If `x_k <= L` for
every `k`, the call never returns. When the sums are exact, `x_k = k * stride`,
and for a positive `stride` there is such an `n`: the offsets are the
`k * stride` that are at most `L`. From `(0,0)` to `(100,0)` with `DotSize` 10
and `Interval` 0 the interval in effect is 2 and the sub-image is 100 by 10:
nine dots of side 10 at 0, 12, ..., 96, each 2 apart from the next, the last
one reaching beyond the width of the sub-image. -/
theorem dots_of_line {K : Type} [LinearOrderedField K] [FloorRing K]
    (ops : FloatOps K) (lib : MathLib K) (maxImageSize : Int) (canvas after : CanvasSize)
    (call : DrawLineCall K) (n fuel : Nat)
    (halloc : call.canvasAfter ops lib maxImageSize canvas = some after)
    (hin : ∀ k : Nat, k < n → dotOffset ops (call.stride ops) k ≤ call.lineLength ops lib)
    (hout : ¬(dotOffset ops (call.stride ops) n ≤ call.lineLength ops lib))
    (hfuel : n < fuel) :
    (∃ drawing : LineDrawing K,
        DrawLine ops lib maxImageSize canvas call fuel = some drawing ∧
        drawing.drawLineCanvas = after ∧
        drawing.canvasWidth = truncToInt (call.lineLength ops lib) ∧
        drawing.canvasHeight = truncToInt (DrawLineOption.resolve call.option).DotSize ∧
        drawing.dotSize = (DrawLineOption.resolve call.option).DotSize ∧
        drawing.dots = (List.range n).map (dotOffset ops (call.stride ops))) ∧
      call.stride ops = ops.add (DrawLineOption.resolve call.option).DotSize
        (DrawLineOption.resolve call.option).Interval ∧
      dotOffset ops (call.stride ops) 0 = 0 ∧
      (∀ k : Nat, dotOffset ops (call.stride ops) (k + 1) =
        ops.add (dotOffset ops (call.stride ops) k) (call.stride ops)) ∧
      (∀ (other : DrawLineCall K) (fuel2 : Nat),
        (∀ k : Nat, dotOffset ops (other.stride ops) k ≤ other.lineLength ops lib) →
          DrawLine ops lib maxImageSize canvas other fuel2 = none) ∧
      (∀ (stride : K) (k : Nat), dotOffset (exactOps K) stride k = (k : K) * stride) ∧
      (∀ stride lineLength : K, 0 < stride →
        ∃ count : Nat, ∀ k : Nat, k < count ↔ (k : K) * stride ≤ lineLength) ∧
      (DrawLineOption.resolve (exampleLine ℝ).option).Interval = 2 ∧
      ∀ (maxImageSize2 : Int) (canvas2 after2 : CanvasSize) (fuel2 : Nat),
        (exampleLine ℝ).canvasAfter (exactOps ℝ) (MathLib.mk Real.pi Real.cos Real.sin Real.sqrt fun y x => Complex.arg (Complex.mk x y)) maxImageSize2 canvas2 = some after2 →
        9 < fuel2 →
        ∃ drawing : LineDrawing ℝ,
          DrawLine (exactOps ℝ) (MathLib.mk Real.pi Real.cos Real.sin Real.sqrt fun y x => Complex.arg (Complex.mk x y)) maxImageSize2 canvas2 (exampleLine ℝ) fuel2 = some drawing ∧
          drawing.drawLineCanvas = after2 ∧
          drawing.canvasWidth = 100 ∧ drawing.canvasHeight = 10 ∧
          drawing.dotSize = 10 ∧ drawing.dots = [0, 12, 24, 36, 48, 60, 72, 84, 96] := by
  refine ⟨DrawLine_dots ops lib maxImageSize canvas after call n fuel halloc hin hout hfuel,
    rfl, rfl, fun k => Function.iterate_succ_apply' _ _ _,
    fun other fuel2 h => DrawLine_none_of_loop ops lib maxImageSize canvas other fuel2 h,
    dotOffset_exact, fun stride lineLength hs => dotCount_exists lineLength stride hs,
    by norm_num [DrawLineOption.resolve, exampleLine],
    fun maxImageSize2 canvas2 after2 fuel2 h1 h2 =>
      exampleLine_dots maxImageSize2 canvas2 after2 fuel2 h1 h2⟩

theorem dots_of_line_witness :
    (exampleLine ℝ).canvasAfter (exactOps ℝ) (MathLib.mk Real.pi Real.cos Real.sin Real.sqrt fun y x => Complex.arg (Complex.mk x y)) sampleMaxImageSize initCanvas =
        some initCanvas ∧
      (∀ k : Nat, k < 9 → dotOffset (exactOps ℝ) ((exampleLine ℝ).stride (exactOps ℝ)) k ≤
        (exampleLine ℝ).lineLength (exactOps ℝ) (MathLib.mk Real.pi Real.cos Real.sin Real.sqrt fun y x => Complex.arg (Complex.mk x y))) ∧
      ¬(dotOffset (exactOps ℝ) ((exampleLine ℝ).stride (exactOps ℝ)) 9 ≤
        (exampleLine ℝ).lineLength (exactOps ℝ) (MathLib.mk Real.pi Real.cos Real.sin Real.sqrt fun y x => Complex.arg (Complex.mk x y))) ∧
      9 < 20 ∧
      ∃ drawing : LineDrawing ℝ,
        DrawLine (exactOps ℝ) (MathLib.mk Real.pi Real.cos Real.sin Real.sqrt fun y x => Complex.arg (Complex.mk x y)) sampleMaxImageSize initCanvas (exampleLine ℝ) 20 =
          some drawing ∧
        drawing.drawLineCanvas = initCanvas ∧
        drawing.canvasWidth = truncToInt ((exampleLine ℝ).lineLength (exactOps ℝ) (MathLib.mk Real.pi Real.cos Real.sin Real.sqrt fun y x => Complex.arg (Complex.mk x y))) ∧
        drawing.canvasHeight =
          truncToInt (DrawLineOption.resolve (exampleLine ℝ).option).DotSize ∧
        drawing.dotSize = (DrawLineOption.resolve (exampleLine ℝ).option).DotSize ∧
        drawing.dots =
          (List.range 9).map (dotOffset (exactOps ℝ) ((exampleLine ℝ).stride (exactOps ℝ))) :=
  ⟨exampleLine_alloc, fun k hk => (exampleLine_count k).1 hk,
    (exampleLine_count 9).2 (le_refl 9), by decide,
    (dots_of_line (exactOps ℝ) (MathLib.mk Real.pi Real.cos Real.sin Real.sqrt fun y x => Complex.arg (Complex.mk x y)) sampleMaxImageSize initCanvas initCanvas (exampleLine ℝ) 9 20
      exampleLine_alloc (fun k hk => (exampleLine_count k).1 hk)
      ((exampleLine_count 9).2 (le_refl 9)) (by decide)).1⟩

/-! ## The base position of `DrawPattern` -/

theorem sqrt_mul_cos_arg (w h : ℝ) :
    Real.sqrt (w ^ 2 + h ^ 2) * Real.cos (Complex.arg (Complex.mk w h)) = w ∧
      Real.sqrt (w ^ 2 + h ^ 2) * Real.sin (Complex.arg (Complex.mk w h)) = h := by
  have habs : Complex.abs (Complex.mk w h) = Real.sqrt (w ^ 2 + h ^ 2) := by
    rw [Complex.abs_apply, Complex.normSq_mk, pow_two, pow_two]
  rw [← habs]
  exact ⟨Complex.abs_mul_cos_arg _, Complex.abs_mul_sin_arg _⟩

/-- The transform of `DrawPattern` for the base position `Center` sends the
centre of a `w` by `h` canvas to `(x, y)`. -/
theorem center_transform (theta w h x y : ℝ) :
    GeoM.Apply
        (((GeoM.identity.Rotate (MathLib.mk Real.pi Real.cos Real.sin Real.sqrt fun y x => Complex.arg (Complex.mk x y)) theta).Translate x y).Translate
          (-(Real.sqrt (w ^ 2 + h ^ 2) / 2) *
            Real.cos (theta + Complex.arg (Complex.mk w h)))
          (-(Real.sqrt (w ^ 2 + h ^ 2) / 2) *
            Real.sin (theta + Complex.arg (Complex.mk w h))))
        (w / 2) (h / 2) = (x, y) := by
  obtain ⟨hc, hs⟩ := sqrt_mul_cos_arg w h
  simp only [GeoM.Apply, GeoM.Translate, GeoM.Rotate, GeoM.identity, Real.cos_add, Real.sin_add]
  refine Prod.ext ?_ ?_
  · show _ = x
    linear_combination (-(Real.cos theta) / 2) * hc + (Real.sin theta / 2) * hs
  · show _ = y
    linear_combination (-(Real.sin theta) / 2) * hc - (Real.cos theta / 2) * hs

/-- The dot of the pattern `[[1]]`: at `(0, 0)`, and its part on the canvas
is the whole canvas when `DotSize` is not negative. -/
theorem singleCell_dot (opt : DrawPatternOption ℝ) (hd : 0 ≤ opt.DotSize) :
    patternDots opt [[1]] = [(0, 0)] ∧
      (dotOnCanvas (patternCanvasSize opt 1 1).1 (patternCanvasSize opt 1 1).2 opt.DotSize
          ((0 : ℝ), (0 : ℝ))).center =
        (((patternCanvasSize opt 1 1).1 : ℝ) / 2, ((patternCanvasSize opt 1 1).2 : ℝ) / 2) := by
  have hsize : patternCanvasSize opt 1 1 = (⌊opt.DotSize⌋, ⌊opt.DotSize⌋) := by
    simp [patternCanvasSize, truncToInt, hd]
  have hfl : ((⌊opt.DotSize⌋ : Int) : ℝ) ≤ opt.DotSize := Int.floor_le _
  constructor
  · simp [patternDots, List.enum, List.enumFrom]
  · rw [hsize]
    simp only [dotOnCanvas, Rect.center, zero_add, max_self, min_eq_right hfl]

/-- C10. Centre anchoring of `DrawPattern`, over the reals: for every pattern
with at least one row, every `DotSize`, `DotInterval` and `Rotate`, with
`BasePosition = Center` the call returns and its transform (rotate by `Rotate`,
translate by `(x, y)`, translate by `(-r*cos(Rotate+phi), -r*sin(Rotate+phi))`
with `r` half the canvas diagonal and `phi = atan2(canvasHeight, canvasWidth)`)
sends the canvas centre `(canvasWidth/2, canvasHeight/2)` to `(x, y)`. In
particular for the pattern `[[1]]` (any rotation, so rotation 0 too) with a
`DotSize` that is not negative, the one dot is at `(0, 0)`, it covers the
canvas, and its centre is sent to `(x, y)`. -/
theorem center_anchoring (canvas : CanvasSize) (call : DrawPatternCall ℝ)
    (hne : call.pattern ≠ [])
    (hcenter : (DrawPatternOption.resolve call.option).BasePosition =
      PatternPosition.PatternPositionCenter) :
    ∃ drawing : PatternDrawing ℝ,
      DrawPattern (MathLib.mk Real.pi Real.cos Real.sin Real.sqrt fun y x => Complex.arg (Complex.mk x y)) canvas call = some drawing ∧
        drawing.geoM =
          ((GeoM.identity.Rotate (MathLib.mk Real.pi Real.cos Real.sin Real.sqrt fun y x => Complex.arg (Complex.mk x y)) (DrawPatternOption.resolve call.option).Rotate).Translate
              call.x call.y).Translate
            (-(Real.sqrt ((drawing.canvasWidth : ℝ) ^ 2 + (drawing.canvasHeight : ℝ) ^ 2) / 2) *
              Real.cos ((DrawPatternOption.resolve call.option).Rotate +
                Complex.arg (Complex.mk (drawing.canvasWidth : ℝ) (drawing.canvasHeight : ℝ))))
            (-(Real.sqrt ((drawing.canvasWidth : ℝ) ^ 2 + (drawing.canvasHeight : ℝ) ^ 2) / 2) *
              Real.sin ((DrawPatternOption.resolve call.option).Rotate +
                Complex.arg (Complex.mk (drawing.canvasWidth : ℝ) (drawing.canvasHeight : ℝ)))) ∧
        drawing.geoM.Apply ((drawing.canvasWidth : ℝ) / 2) ((drawing.canvasHeight : ℝ) / 2) =
          (call.x, call.y) ∧
        (call.pattern = [[1]] → 0 ≤ (DrawPatternOption.resolve call.option).DotSize →
          drawing.dots = [(0, 0)] ∧
            drawing.geoM.Apply
                (dotOnCanvas drawing.canvasWidth drawing.canvasHeight drawing.dotSize
                  ((0 : ℝ), (0 : ℝ))).center.1
                (dotOnCanvas drawing.canvasWidth drawing.canvasHeight drawing.dotSize
                  ((0 : ℝ), (0 : ℝ))).center.2 =
              (call.x, call.y)) := by
  cases hp : call.pattern with
  | nil => exact absurd hp hne
  | cons row0 rest =>
    unfold DrawPattern
    rw [hp]
    simp only [hcenter]
    refine ⟨_, rfl, rfl, center_transform _ _ _ _ _, ?_⟩
    intro hone hd
    obtain ⟨hrow, hrest⟩ := List.cons.inj hone
    subst hrow
    subst hrest
    obtain ⟨hdots, hcen⟩ := singleCell_dot (DrawPatternOption.resolve call.option) hd
    refine ⟨hdots, ?_⟩
    simp only [List.length_singleton] at hcen ⊢
    rw [hcen]
    exact center_transform _ _ _ _ _

theorem center_anchoring_witness :
    (singleDot ℝ).pattern ≠ [] ∧
      ∃ drawing : PatternDrawing ℝ,
        DrawPattern (MathLib.mk Real.pi Real.cos Real.sin Real.sqrt fun y x => Complex.arg (Complex.mk x y)) initCanvas (singleDot ℝ) = some drawing ∧
          drawing.geoM.Apply ((drawing.canvasWidth : ℝ) / 2) ((drawing.canvasHeight : ℝ) / 2) =
            ((singleDot ℝ).x, (singleDot ℝ).y) :=
  ⟨by simp [singleDot],
    (center_anchoring initCanvas (singleDot ℝ) (by simp [singleDot])
      (by norm_num [DrawPatternOption.resolve, singleDot])).imp
      fun _ h => ⟨h.1, h.2.2.1⟩⟩

/-! ## The level -/

theorem updatePlaying_level (inp : Input) (g : Game) : (g.updatePlaying inp).level = g.level := by
  have h := (updatePlayingMove_frame inp g).2.2.2
  unfold Game.updatePlaying
  simp only [Game.updateMoleculeCountInCorrectArea]
  split_ifs <;> exact h

theorem updateComplete_level (lib : MathLib ℚ) (inp : Input) (g : Game) :
    (inp.isJustTouched = true →
        (g.updateComplete lib inp).level = wrapInt (g.level + 1) ∧
          (g.updateComplete lib inp).mode = GameModeLevelStart) ∧
      (inp.isJustTouched = false →
        (g.updateComplete lib inp).level = g.level ∧ (g.updateComplete lib inp).mode = g.mode) := by
  unfold Game.updateComplete
  constructor
  · intro h
    rw [if_pos h]
    exact ⟨rfl, rfl⟩
  · intro h
    rw [if_neg (by rw [h]; exact Bool.false_ne_true)]
    exact ⟨rfl, rfl⟩

theorem Update_level (lib : MathLib ℚ) (inp : Input) (g : Game) :
    (g.Update lib inp).level =
      if g.mode = GameModeComplete ∧ inp.isJustTouched = true then wrapInt (g.level + 1)
      else g.level := by
  obtain ⟨h1, h2⟩ := updateComplete_level lib inp
    { g with ticksFromModeStart := (g.ticksFromModeStart + 1) % 2 ^ 64 }
  have h3 := updatePlaying_level inp
    { g with ticksFromModeStart := (g.ticksFromModeStart + 1) % 2 ^ 64 }
  by_cases hc : g.mode = GameModeComplete ∧ inp.isJustTouched = true
  · rw [if_pos hc]
    unfold Game.Update
    simp only
    split
    · rename_i hm
      exact absurd (hc.1.symm.trans hm) (by decide)
    · rename_i hm
      exact absurd (hc.1.symm.trans hm) (by decide)
    · rename_i hm
      exact absurd (hc.1.symm.trans hm) (by decide)
    · exact (h1 hc.2).1
  · rw [if_neg hc]
    unfold Game.Update
    simp only
    split
    · split_ifs <;> rfl
    · split_ifs <;> rfl
    · exact h3
    · rename_i hm
      have hm' : g.mode = GameModeComplete := hm
      have ht : inp.isJustTouched = false := by
        cases hb : inp.isJustTouched
        · rfl
        · exact absurd ⟨hm', hb⟩ hc
      exact (h2 ht).1

theorem Update_mode_of_advance (lib : MathLib ℚ) (inp : Input) (g : Game)
    (hm : g.mode = GameModeComplete) (ht : inp.isJustTouched = true) :
    (g.Update lib inp).mode = GameModeLevelStart := by
  unfold Game.Update
  simp only
  split
  · rename_i hm2
    exact absurd (hm.symm.trans hm2) (by decide)
  · rename_i hm2
    exact absurd (hm.symm.trans hm2) (by decide)
  · rename_i hm2
    exact absurd (hm.symm.trans hm2) (by decide)
  · exact ((updateComplete_level lib inp _).1 ht).2

/-- Along a run that cannot exhaust the range of `int`, the level stays
between 1 and its start value plus the number of steps. -/
theorem run_level_bounds (lib : MathLib ℚ) (inputs : List Input) :
    ∀ g : Game, 1 ≤ g.level → g.level + (inputs.length : Int) < 2 ^ 63 →
      1 ≤ (g.run lib inputs).level ∧
        (g.run lib inputs).level ≤ g.level + (inputs.length : Int) := by
  induction inputs with
  | nil =>
    intro g h _
    exact ⟨h, by simp [Game.run]⟩
  | cons inp rest ih =>
    intro g h hlen
    rw [List.length_cons] at hlen ⊢
    push_cast at hlen ⊢
    have hU := Update_level lib inp g
    have hw : wrapInt (g.level + 1) = g.level + 1 := wrapInt_of_range _ (by omega) (by omega)
    rw [hw] at hU
    have hb : g.level ≤ (g.Update lib inp).level ∧ (g.Update lib inp).level ≤ g.level + 1 := by
      rw [hU]
      split_ifs <;> omega
    obtain ⟨i1, i2⟩ := ih (g.Update lib inp) (by omega) (by omega)
    exact ⟨i1, by
      have : (Game.run lib g (inp :: rest)) = Game.run lib (g.Update lib inp) rest := rfl
      rw [this]
      omega⟩

/-- C11, as stated, fails at the largest level that `int` holds: in mode
`GameModeComplete` with the activation input just pressed, `level++` takes
`2^63 - 1` to `-2^63`, not to `level + 1`, and the level is then below 1. -/
theorem level_wraps_at_max :
    maxLevelGame.mode = GameModeComplete ∧ pressInput.isJustTouched = true ∧
      maxLevelGame.level = 2 ^ 63 - 1 ∧
      (maxLevelGame.Update sampleLib pressInput).level = -2 ^ 63 ∧
      (maxLevelGame.Update sampleLib pressInput).level ≠ maxLevelGame.level + 1 ∧
      ¬(1 ≤ (maxLevelGame.Update sampleLib pressInput).level) := by
  have hU : (maxLevelGame.Update sampleLib pressInput).level = -2 ^ 63 := by
    rw [Update_level, if_pos ⟨rfl, rfl⟩]
    decide
  refine ⟨rfl, rfl, by decide, hU, ?_, ?_⟩
  · rw [hU]
    decide
  · rw [hU]
    decide

/-- C11, amended. In every `Update` step on a level within the range of `int`
and below its largest value `2^63 - 1`, the level changes if and only if the
step is the Complete to LevelStart transition (mode `GameModeComplete` and the
activation input just pressed); the level then increases by exactly 1 and the
mode becomes `GameModeLevelStart`. In every other step (Title, LevelStart,
Playing, and Complete without activation) the level is unchanged. `initialize`
sets the level to 1, and after any run of fewer than `2^63 - 1` `Update` steps
from there the level is at least 1 and at most 1 plus the number of steps. -/
theorem level_changes_only_on_advance (lib : MathLib ℚ) (rand : Nat → Nat) (inp : Input)
    (g g0 : Game) (inputs : List Input)
    (hlo : -2 ^ 63 ≤ g.level) (hhi : g.level < 2 ^ 63 - 1)
    (hlen : (inputs.length : Int) < 2 ^ 63 - 1) :
    ((g.Update lib inp).level ≠ g.level ↔
        g.mode = GameModeComplete ∧ inp.isJustTouched = true) ∧
      (g.Update lib inp).level =
        (if g.mode = GameModeComplete ∧ inp.isJustTouched = true then g.level + 1
          else g.level) ∧
      (if g.mode = GameModeComplete ∧ inp.isJustTouched = true then
          (g.Update lib inp).mode = GameModeLevelStart
        else (g.Update lib inp).level = g.level) ∧
      ( Game.initialize lib rand g0).level = 1 ∧
      1 ≤ (Game.run lib ( Game.initialize lib rand g0) inputs).level ∧
      (Game.run lib ( Game.initialize lib rand g0) inputs).level ≤ 1 + (inputs.length : Int) := by
  have hw : wrapInt (g.level + 1) = g.level + 1 := wrapInt_of_range _ (by omega) (by omega)
  have hl := Update_level lib inp g
  rw [hw] at hl
  have hinit : ( Game.initialize lib rand g0).level = 1 := rfl
  obtain ⟨r1, r2⟩ := run_level_bounds lib inputs ( Game.initialize lib rand g0)
    (le_of_eq hinit.symm) (by rw [hinit]; omega)
  rw [hinit] at r2
  refine ⟨?_, hl, ?_, hinit, r1, r2⟩
  · rw [hl]
    split_ifs with hc
    · simp [hc]
    · simp [hc]
  · split_ifs with hc
    · exact Update_mode_of_advance lib inp g hc.1 hc.2
    · rw [hl, if_neg hc]

theorem level_changes_only_on_advance_witness :
    (-2 ^ 63 ≤ completeGame.level ∧ completeGame.level < 2 ^ 63 - 1) ∧
      (completeGame.Update sampleLib pressInput).level = completeGame.level + 1 ∧
      (completeGame.Update sampleLib pressInput).mode = GameModeLevelStart :=
  ⟨by decide,
    ((level_changes_only_on_advance sampleLib idleInput.rand pressInput completeGame sampleGame
      [idleInput, pressInput] (by decide) (by decide) (by decide)).2.1).trans
      (if_pos ⟨rfl, rfl⟩),
    Update_mode_of_advance sampleLib pressInput completeGame rfl rfl⟩

/-! ## The Complete mode -/

/-- `reboundIfCollide` reads only the slit of the game. -/
theorem reboundIfCollide_congr (m : Molecule) (game1 game2 : Game)
    (ho : game1.isPartitionSlitOpen = game2.isPartitionSlitOpen)
    (ht : game1.partitionSlitTop = game2.partitionSlitTop)
    (hb : game1.partitionSlitBottom = game2.partitionSlitBottom) :
    m.reboundIfCollide game1 = m.reboundIfCollide game2 := by
  have hl : ∀ m : Molecule, m.reboundPartitionLeft game1 = m.reboundPartitionLeft game2 := by
    intro m
    unfold Molecule.reboundPartitionLeft
    rw [ho, ht, hb]
  have hr : ∀ m : Molecule, m.reboundPartitionRight game1 = m.reboundPartitionRight game2 := by
    intro m
    unfold Molecule.reboundPartitionRight
    rw [ho, ht, hb]
  unfold Molecule.reboundIfCollide
  rw [hl, hr]

/-- C12. In `GameModeComplete`, an `Update` tick without activation input
applies `move` and then `reboundIfCollide` to every molecule and leaves the
mode, the level, the counts `highSpeedMoleculeCountInRightSide` and
`lowSpeedMoleculeCountInLeftSide`, the targets `highSpeedMoleculeCount` and
`lowSpeedMoleculeCount`, and the gate (top, bottom, velocity, open flag) as
they were, whatever the molecules do in the tick. -/
theorem complete_idle_tick (lib : MathLib ℚ) (inp : Input) (g : Game)
    (hmode : g.mode = GameModeComplete) (hidle : inp.isJustTouched = false) :
    (g.Update lib inp).molecules =
        g.molecules.map (fun m : Molecule => m.move.reboundIfCollide g) ∧
      (g.Update lib inp).mode = GameModeComplete ∧
      (g.Update lib inp).level = g.level ∧
      (g.Update lib inp).highSpeedMoleculeCountInRightSide =
        g.highSpeedMoleculeCountInRightSide ∧
      (g.Update lib inp).lowSpeedMoleculeCountInLeftSide = g.lowSpeedMoleculeCountInLeftSide ∧
      (g.Update lib inp).highSpeedMoleculeCount = g.highSpeedMoleculeCount ∧
      (g.Update lib inp).lowSpeedMoleculeCount = g.lowSpeedMoleculeCount ∧
      (g.Update lib inp).partitionSlitTop = g.partitionSlitTop ∧
      (g.Update lib inp).partitionSlitBottom = g.partitionSlitBottom ∧
      (g.Update lib inp).partitionSlitVec = g.partitionSlitVec ∧
      (g.Update lib inp).isPartitionSlitOpen = g.isPartitionSlitOpen := by
  have hU : g.Update lib inp =
      { g with
        ticksFromModeStart := (g.ticksFromModeStart + 1) % 2 ^ 64
        molecules := g.molecules.map (fun m : Molecule => m.move.reboundIfCollide
          { g with ticksFromModeStart := (g.ticksFromModeStart + 1) % 2 ^ 64 }) } := by
    unfold Game.Update
    simp only
    split
    · rename_i hm
      exact absurd (hmode.symm.trans hm) (by decide)
    · rename_i hm
      exact absurd (hmode.symm.trans hm) (by decide)
    · rename_i hm
      exact absurd (hmode.symm.trans hm) (by decide)
    · unfold Game.updateComplete
      rw [if_neg (by rw [hidle]; exact Bool.false_ne_true)]
  rw [hU]
  refine ⟨?_, hmode, rfl, rfl, rfl, rfl, rfl, rfl, rfl, rfl, rfl⟩
  exact List.map_congr_left fun m _ => reboundIfCollide_congr _ _ _ rfl rfl rfl

theorem complete_idle_tick_witness :
    completeGame.mode = GameModeComplete ∧ idleInput.isJustTouched = false ∧
      completeGame.molecules.map (fun m : Molecule => m.x) = [321] ∧
      (completeGame.Update sampleLib idleInput).molecules.map (fun m : Molecule => m.x) = [317] ∧
      completeGame.highSpeedMoleculeCountInRightSide = 1 ∧
      (completeGame.Update sampleLib idleInput).highSpeedMoleculeCountInRightSide = 1 ∧
      (completeGame.Update sampleLib idleInput).mode = GameModeComplete := by
  obtain ⟨hmol, hm, -, hcount, -⟩ := complete_idle_tick sampleLib idleInput completeGame rfl rfl
  refine ⟨rfl, rfl, by simp [completeGame], ?_, rfl, ?_, hm⟩
  · rw [hmol]
    norm_num [completeGame, Molecule.move, Molecule.reboundIfCollide, Molecule.reboundFrameLeft,
      Molecule.reboundFrameRight, Molecule.reboundFrameTop, Molecule.reboundFrameBottom,
      Molecule.reboundPartitionLeft, Molecule.reboundPartitionRight]
  · rw [hcount]
    rfl

/-! ## The motion of the slit -/

theorem handleTouch_open (inp : Input) (g : Game) :
    (g.handleTouch inp).isPartitionSlitOpen =
      (if inp.isJustReleased = true then false
        else if inp.isJustTouched = true then true else g.isPartitionSlitOpen) := by
  unfold Game.handleTouch
  cases inp.isJustReleased <;> cases inp.isJustTouched <;> simp

theorem movePartitionSlit_open (g : Game) (h : g.isPartitionSlitOpen = true) :
    g.movePartitionSlit = g := by
  unfold Game.movePartitionSlit
  simp [h]

theorem movePartitionSlit_closed (g : Game) (h : g.isPartitionSlitOpen = false) :
    (g.movePartitionSlit.partitionSlitTop, g.movePartitionSlit.partitionSlitBottom,
        g.movePartitionSlit.partitionSlitVec) =
      (if g.partitionSlitTop + g.partitionSlitVec < (frameTop : ℚ) then
          ((frameTop : ℚ), (frameTop : ℚ) + (partitionSlitSize : ℚ), g.partitionSlitVec * -1)
        else if g.partitionSlitBottom + g.partitionSlitVec > (frameBottom : ℚ) then
          ((frameBottom : ℚ) - (partitionSlitSize : ℚ), (frameBottom : ℚ),
            g.partitionSlitVec * -1)
        else
          (g.partitionSlitTop + g.partitionSlitVec, g.partitionSlitBottom + g.partitionSlitVec,
            g.partitionSlitVec)) := by
  have hm : g.movePartitionSlit = g.slitAdvance.slitReboundTop.slitReboundBottom := by
    unfold Game.movePartitionSlit
    simp [h]
  rw [hm]
  by_cases h1 : g.partitionSlitTop + g.partitionSlitVec < (frameTop : ℚ)
  · have h1a : g.slitAdvance.partitionSlitTop < (frameTop : ℚ) := h1
    have ht : g.slitAdvance.slitReboundTop =
        { g.slitAdvance with
          partitionSlitTop := (frameTop : ℚ)
          partitionSlitBottom := (frameTop : ℚ) + (partitionSlitSize : ℚ)
          partitionSlitVec := g.slitAdvance.partitionSlitVec * -1 } := by
      unfold Game.slitReboundTop
      exact if_pos h1a
    have hb : ¬((frameTop : ℚ) + (partitionSlitSize : ℚ) > (frameBottom : ℚ)) := by norm_num
    rw [ht, if_pos h1]
    unfold Game.slitReboundBottom
    rw [if_neg hb]
    rfl
  · have h1a : ¬(g.slitAdvance.partitionSlitTop < (frameTop : ℚ)) := h1
    have ht : g.slitAdvance.slitReboundTop = g.slitAdvance := by
      unfold Game.slitReboundTop
      exact if_neg h1a
    rw [ht, if_neg h1]
    unfold Game.slitReboundBottom
    by_cases h2 : g.partitionSlitBottom + g.partitionSlitVec > (frameBottom : ℚ)
    · have h2a : g.slitAdvance.partitionSlitBottom > (frameBottom : ℚ) := h2
      rw [if_pos h2a, if_pos h2]
      rfl
    · have h2a : ¬(g.slitAdvance.partitionSlitBottom > (frameBottom : ℚ)) := h2
      rw [if_neg h2a, if_neg h2]
      rfl

theorem updatePlayingMove_slit (inp : Input) (g : Game) :
    (g.updatePlayingMove inp).isPartitionSlitOpen = (g.handleTouch inp).isPartitionSlitOpen ∧
      ((g.handleTouch inp).isPartitionSlitOpen = true →
        (g.updatePlayingMove inp).partitionSlitTop = g.partitionSlitTop ∧
          (g.updatePlayingMove inp).partitionSlitBottom = g.partitionSlitBottom ∧
          (g.updatePlayingMove inp).partitionSlitVec = g.partitionSlitVec) ∧
      ((g.handleTouch inp).isPartitionSlitOpen = false →
        ((g.updatePlayingMove inp).partitionSlitTop, (g.updatePlayingMove inp).partitionSlitBottom,
            (g.updatePlayingMove inp).partitionSlitVec) =
          (if g.partitionSlitTop + g.partitionSlitVec < (frameTop : ℚ) then
              ((frameTop : ℚ), (frameTop : ℚ) + (partitionSlitSize : ℚ), g.partitionSlitVec * -1)
            else if g.partitionSlitBottom + g.partitionSlitVec > (frameBottom : ℚ) then
              ((frameBottom : ℚ) - (partitionSlitSize : ℚ), (frameBottom : ℚ),
                g.partitionSlitVec * -1)
            else
              (g.partitionSlitTop + g.partitionSlitVec,
                g.partitionSlitBottom + g.partitionSlitVec, g.partitionSlitVec))) := by
  have ho : (({ g with playingSec := inp.now - g.playStartTime } : Game).handleTouch
      inp).isPartitionSlitOpen = (g.handleTouch inp).isPartitionSlitOpen := by
    rw [handleTouch_open, handleTouch_open]
  obtain ⟨-, -, -, -, -, kt, kb, kv⟩ :=
    handleTouch_frame inp { g with playingSec := inp.now - g.playStartTime }
  simp only at kt kb kv
  unfold Game.updatePlayingMove
  simp only
  refine ⟨?_, ?_, ?_⟩
  · rw [(movePartitionSlit_frame _).2.1]
    exact ho
  · intro h
    rw [movePartitionSlit_open _ (by rw [← h, ← ho])]
    exact ⟨kt, kb, kv⟩
  · intro h
    rw [movePartitionSlit_closed _ (by rw [← h, ← ho])]
    simp only [kt, kb, kv]

/-- C13. Gate motion is frozen while open. In a `GameModePlaying` tick the
input handling sets `isPartitionSlitOpen` to false on a release, else to true
on a press, else leaves it, and this is its value after the tick. If the gate
is then open, `partitionSlitTop`, `partitionSlitBottom` and `partitionSlitVec`
are unchanged by the tick. If it is closed, top and bottom each advance by
`partitionSlitVec`; then, if the new top is below `frameTop`, the slit is put
at `frameTop` and the velocity negated, and otherwise, if the new bottom is
beyond `frameBottom`, the slit is put at `frameBottom` and the velocity
negated. -/
theorem gate_frozen_while_open (lib : MathLib ℚ) (inp : Input) (g : Game)
    (hmode : g.mode = GameModePlaying) :
    (g.handleTouch inp).isPartitionSlitOpen =
        (if inp.isJustReleased = true then false
          else if inp.isJustTouched = true then true else g.isPartitionSlitOpen) ∧
      (g.Update lib inp).isPartitionSlitOpen = (g.handleTouch inp).isPartitionSlitOpen ∧
      ((g.handleTouch inp).isPartitionSlitOpen = true →
        (g.Update lib inp).partitionSlitTop = g.partitionSlitTop ∧
          (g.Update lib inp).partitionSlitBottom = g.partitionSlitBottom ∧
          (g.Update lib inp).partitionSlitVec = g.partitionSlitVec) ∧
      ((g.handleTouch inp).isPartitionSlitOpen = false →
        ((g.Update lib inp).partitionSlitTop, (g.Update lib inp).partitionSlitBottom,
            (g.Update lib inp).partitionSlitVec) =
          (if g.partitionSlitTop + g.partitionSlitVec < (frameTop : ℚ) then
              ((frameTop : ℚ), (frameTop : ℚ) + (partitionSlitSize : ℚ), g.partitionSlitVec * -1)
            else if g.partitionSlitBottom + g.partitionSlitVec > (frameBottom : ℚ) then
              ((frameBottom : ℚ) - (partitionSlitSize : ℚ), (frameBottom : ℚ),
                g.partitionSlitVec * -1)
            else
              (g.partitionSlitTop + g.partitionSlitVec,
                g.partitionSlitBottom + g.partitionSlitVec, g.partitionSlitVec))) := by
  have hU : g.Update lib inp =
      Game.updatePlaying inp { g with ticksFromModeStart := (g.ticksFromModeStart + 1) % 2 ^ 64 } := by
    unfold Game.Update
    simp only [hmode]
  obtain ⟨gt, gb, gv, go⟩ := updatePlaying_gate inp
    { g with ticksFromModeStart := (g.ticksFromModeStart + 1) % 2 ^ 64 }
  obtain ⟨so, sopen, sclosed⟩ := updatePlayingMove_slit inp
    { g with ticksFromModeStart := (g.ticksFromModeStart + 1) % 2 ^ 64 }
  have ho : (({ g with ticksFromModeStart := (g.ticksFromModeStart + 1) % 2 ^ 64 } :
      Game).handleTouch inp).isPartitionSlitOpen = (g.handleTouch inp).isPartitionSlitOpen := by
    rw [handleTouch_open, handleTouch_open]
  rw [ho] at so sopen sclosed
  simp only at sopen sclosed
  rw [hU, gt, gb, gv, go]
  exact ⟨handleTouch_open inp g, so, sopen, sclosed⟩

theorem gate_frozen_while_open_witness :
    sampleGame.mode = GameModePlaying ∧
      (sampleGame.handleTouch pressInput).isPartitionSlitOpen = true ∧
      ((sampleGame.Update sampleLib pressInput).partitionSlitTop = sampleGame.partitionSlitTop ∧
        (sampleGame.Update sampleLib pressInput).partitionSlitBottom =
          sampleGame.partitionSlitBottom ∧
        (sampleGame.Update sampleLib pressInput).partitionSlitVec =
          sampleGame.partitionSlitVec) ∧
      (sampleGame.handleTouch idleInput).isPartitionSlitOpen = false ∧
      ((sampleGame.Update sampleLib idleInput).partitionSlitTop,
          (sampleGame.Update sampleLib idleInput).partitionSlitBottom,
          (sampleGame.Update sampleLib idleInput).partitionSlitVec) = (189, 239, 1) := by
  refine ⟨rfl, rfl, (gate_frozen_while_open sampleLib pressInput sampleGame rfl).2.2.1 rfl, rfl,
    ?_⟩
  rw [(gate_frozen_while_open sampleLib idleInput sampleGame rfl).2.2.2 rfl]
  norm_num [sampleGame]

end MaxwellsDemon
